import Mathlib

/-!
Verification development for the Corelang compiler / bytecode VM.

The definitions below are a shallow embedding of the TypeScript sources:
JavaScript `Map`s become insertion-ordered association lists, thrown
exceptions become `Except` errors, machine numbers become `Int`/`Nat`
(float payloads are carried as rationals; only branches that test a float
against zero are relied upon), and the handful of recursive procedures
that have no syntactic termination argument are given explicit fuel.
-/

namespace Corelang

/-! ## Insertion-ordered string maps (JS `Map` semantics) -/

/-- `Map.get`: first binding whose key matches. -/
def mapGet {α : Type} : List (String × α) → String → Option α
  | [], _ => none
  | (k', v) :: rest, k => if k' = k then some v else mapGet rest k

/-- `Map.set`: update in place if the key exists (keeping insertion order),
otherwise append at the end. -/
def mapSet {α : Type} : List (String × α) → String → α → List (String × α)
  | [], k, v => [(k, v)]
  | (k', v') :: rest, k, v =>
      if k' = k then (k', v) :: rest else (k', v') :: mapSet rest k v

/-- `Map.values()` in insertion order. -/
def mapValues {α : Type} (m : List (String × α)) : List α := m.map (·.2)

theorem mapGet_mapSet_self {α : Type} (m : List (String × α)) (k : String) (v : α) :
    mapGet (mapSet m k v) k = some v := by
  induction m with
  | nil => simp [mapSet, mapGet]
  | cons hd tl ih =>
      obtain ⟨k', v'⟩ := hd
      by_cases h : k' = k
      · simp [mapSet, mapGet, h]
      · simp [mapSet, mapGet, h, ih]

theorem mapGet_mapSet_ne {α : Type} (m : List (String × α)) (k k' : String) (v : α)
    (h : k ≠ k') : mapGet (mapSet m k v) k' = mapGet m k' := by
  induction m with
  | nil => simp [mapSet, mapGet, h]
  | cons hd tl ih =>
      obtain ⟨k₀, v₀⟩ := hd
      by_cases h₀ : k₀ = k
      · subst h₀; simp [mapSet, mapGet, h]
      · simp [mapSet, mapGet, h₀, ih]

/-- `[...new Set(xs)]`: deduplicate keeping first occurrences. -/
def jsSetDedup : List String → List String :=
  go []
where
  go (seen : List String) : List String → List String
    | [] => []
    | x :: rest => if x ∈ seen then go seen rest else x :: go (x :: seen) rest

/-! ## Semantic versions (`src/compiler/versioning/semver.ts`) -/

structure SemanticVersion where
  major : Nat
  minor : Nat
  patch : Nat
  prerelease : Option String
  build : Option String
deriving DecidableEq, Repr

inductive VersionCompareResult where
  | less
  | equal
  | greater
deriving DecidableEq, Repr

/-- Numeric value of the enum (`Less = -1, Equal = 0, Greater = 1`),
used where the source compares results with `>=`. -/
def VersionCompareResult.toInt : VersionCompareResult → Int
  | .less => -1
  | .equal => 0
  | .greater => 1

/-- `compareVersions`: lexicographic on `(major, minor, patch)`, then the
prerelease rule (no prerelease is greater; prereleases compare as strings). -/
def compareVersions (a b : SemanticVersion) : VersionCompareResult :=
  if a.major ≠ b.major then
    (if a.major > b.major then .greater else .less)
  else if a.minor ≠ b.minor then
    (if a.minor > b.minor then .greater else .less)
  else if a.patch ≠ b.patch then
    (if a.patch > b.patch then .greater else .less)
  else if a.prerelease ≠ b.prerelease then
    match a.prerelease, b.prerelease with
    | none, _ => .greater
    | some _, none => .less
    | some pa, some pb =>
        if pa > pb then .greater else if pa < pb then .less else .equal
  else .equal

/-- Character class `[a-zA-Z0-9.-]` of the semver regex. -/
def isSemverTagChar (c : Char) : Bool :=
  c.isAlpha || c.isDigit || c = '.' || c = '-'

/-- `parseInt(digits, 10)`. -/
def digitsToNat (ds : List Char) : Nat :=
  ds.foldl (fun n c => n * 10 + (c.toNat - '0'.toNat)) 0

/-- Split off a maximal run of decimal digits. -/
def spanDigits (cs : List Char) : List Char × List Char :=
  (cs.takeWhile Char.isDigit, cs.dropWhile Char.isDigit)

/-- Optional `(?:\.(\d+))?` group: a dot must be followed by digits,
otherwise the whole version string is rejected (the leftover dot can never
be consumed by the remaining groups of the anchored regex). -/
def parseDotNum (cs : List Char) : Option (Option Nat × List Char) :=
  match cs with
  | '.' :: rest =>
      let (ds, r) := spanDigits rest
      if ds.isEmpty then none else some (some (digitsToNat ds), r)
  | _ => some (none, cs)

/-- Optional `(?:X([a-zA-Z0-9.-]+))?` group introduced by marker `mark`
(`-` for prerelease, `+` for build). -/
def parseTagged (mark : Char) (cs : List Char) : Option (Option String × List Char) :=
  match cs with
  | c :: rest =>
      if c = mark then
        let tk := rest.takeWhile isSemverTagChar
        let r := rest.dropWhile isSemverTagChar
        if tk.isEmpty then none else some (some (String.mk tk), r)
      else some (none, cs)
  | [] => some (none, [])

/-- Strip the optional `v` / `:v` marker of the version string. -/
def stripLeadingV : List Char → List Char
  | ':' :: 'v' :: rest => rest
  | 'v' :: rest => rest
  | cs => cs

/-- `parseVersion`: the anchored regex
`^(\d+)(?:\.(\d+))?(?:\.(\d+))?(?:-([a-zA-Z0-9.-]+))?(?:\+([a-zA-Z0-9.-]+))?$`
after removing a `v`/`:v` marker. -/
def parseVersion (s : String) : Option SemanticVersion := do
  let cs := stripLeadingV s.data
  let (ds, r1) := spanDigits cs
  if ds.isEmpty then none else
  let (minor, r2) ← parseDotNum r1
  let (patch, r3) ← parseDotNum r2
  let (pre, r4) ← parseTagged '-' r3
  let (build, r5) ← parseTagged '+' r4
  if r5.isEmpty then
    some { major := digitsToNat ds, minor := minor.getD 0, patch := patch.getD 0,
           prerelease := pre, build := build }
  else none

/-- Canonical version key `M.m.p[-pre]` used by the registry index. -/
def versionKey (v : SemanticVersion) : String :=
  toString v.major ++ "." ++ toString v.minor ++ "." ++ toString v.patch ++
    (match v.prerelease with
     | some p => "-" ++ p
     | none => "")

/-! ## Version constraints -/

inductive VersionConstraint where
  | exact (version : SemanticVersion)
  | range (min : Option SemanticVersion) (max : Option SemanticVersion)
      (minInclusive : Bool) (maxInclusive : Bool)
  | caret (base : SemanticVersion)
  | tilde (base : SemanticVersion)
  | latest
  | stable
  | any
deriving DecidableEq, Repr

/-- Character class `[v\d.]` of the range regex. -/
def isRangeVersionChar (c : Char) : Bool :=
  c = 'v' || c.isDigit || c = '.'

/-- Leading `(>=?|<=?)?` of the range regex (longest-match, which agrees
with the backtracking behaviour of the anchored regex). -/
def takeMinOp : List Char → Option String × List Char
  | '>' :: '=' :: rest => (some ">=", rest)
  | '>' :: rest => (some ">", rest)
  | '<' :: '=' :: rest => (some "<=", rest)
  | '<' :: rest => (some "<", rest)
  | cs => (none, cs)

/-- `(<|<=)?` before the optional upper bound. -/
def takeMaxOp : List Char → Option String × List Char
  | '<' :: '=' :: rest => (some "<=", rest)
  | '<' :: rest => (some "<", rest)
  | cs => (none, cs)

/-- The `(>=|>)? V (<=|<)? V?` range form of `parseConstraint`. -/
def parseRangeConstraint (cs : List Char) : Option VersionConstraint := do
  let (minOp, r1) := takeMinOp cs
  let verChars := r1.takeWhile isRangeVersionChar
  let r2 := r1.dropWhile isRangeVersionChar
  if verChars.isEmpty then none else
  let r3 := r2.dropWhile Char.isWhitespace
  let (maxOp, r4) := takeMaxOp r3
  let r5 := r4.dropWhile Char.isWhitespace
  let maxChars := r5.takeWhile isRangeVersionChar
  let r6 := r5.dropWhile isRangeVersionChar
  if ¬ r6.isEmpty then none else
  match parseVersion (String.mk verChars) with
  | none => none
  | some minVersion =>
      let maxVersion :=
        if maxChars.isEmpty then none else parseVersion (String.mk maxChars)
      some (.range (some minVersion) maxVersion
        (minOp = none || minOp = some ">=") (maxOp = some "<="))

/-- `parseConstraint`. -/
def parseConstraint (constraintString : String) : Option VersionConstraint :=
  let trimmed := constraintString.trim
  if trimmed = "latest" || trimmed = "*" then some .latest
  else if trimmed = "stable" || trimmed = "stable-only" then some .stable
  else if trimmed = "any" || trimmed = "all-versions" then some .any
  else if trimmed.startsWith "^" then
    match parseVersion (trimmed.drop 1) with
    | some v => some (.caret v)
    | none => parseConstraintTail trimmed
  else if trimmed.startsWith "~" then
    match parseVersion (trimmed.drop 1) with
    | some v => some (.tilde v)
    | none => parseConstraintTail trimmed
  else parseConstraintTail trimmed
where
  /-- Exact-version attempt (when no `<>=` operator occurs) followed by the
  range form. -/
  parseConstraintTail (trimmed : String) : Option VersionConstraint :=
    if ¬ trimmed.data.any (fun c => c = '<' || c = '>' || c = '=') then
      match parseVersion trimmed with
      | some v => some (.exact v)
      | none => parseRangeConstraint trimmed.data
    else parseRangeConstraint trimmed.data

/-- `satisfiesConstraint`. -/
def satisfiesConstraint (version : SemanticVersion) (constraint : VersionConstraint) : Bool :=
  match constraint with
  | .any => true
  | .latest => true
  | .stable => version.prerelease.isNone
  | .exact v => compareVersions version v = .equal
  | .caret base =>
      let upperBound : SemanticVersion :=
        { major := base.major + 1, minor := 0, patch := 0, prerelease := none, build := none }
      (compareVersions version base).toInt ≥ (VersionCompareResult.equal).toInt &&
        compareVersions version upperBound = .less
  | .tilde base =>
      let upperBound : SemanticVersion :=
        { major := base.major, minor := base.minor + 1, patch := 0,
          prerelease := none, build := none }
      (compareVersions version base).toInt ≥ (VersionCompareResult.equal).toInt &&
        compareVersions version upperBound = .less
  | .range min max minInclusive maxInclusive =>
      (match min with
       | some m =>
           let c := compareVersions version m
           if minInclusive then c ≠ .less else c = .greater
       | none => true) &&
      (match max with
       | some m =>
           let c := compareVersions version m
           if maxInclusive then c ≠ .greater else c = .less
       | none => true)

end Corelang

namespace Corelang

/-! ## Runtime values (`src/unnamed/part_000`, `value.ts`)

Only the tags exercised by the embedded opcodes are carried. Float
payloads are modeled as rationals; the claims below only depend on the
`=== 0` test of the float branch, never on float arithmetic results. -/

inductive ResultVariant where
  | ok
  | err
deriving DecidableEq, Repr

inductive OptionVariant where
  | some
  | none
deriving DecidableEq, Repr

inductive Value where
  | unit
  | bool (b : Bool)
  | int (n : Int)
  | float (q : ℚ)
  | string (s : String)
  | list (items : List Value)
  | result (variant : ResultVariant) (value : Value)
  | option (variant : OptionVariant) (value : Option Value)

/-- The `type` tag string of a value (used in type-mismatch messages). -/
def Value.typeTag : Value → String
  | .unit => "unit"
  | .bool _ => "bool"
  | .int _ => "int"
  | .float _ => "float"
  | .string _ => "string"
  | .list _ => "list"
  | .result _ _ => "result"
  | .option _ _ => "option"

namespace ValueFactory

/-- `ValueFactory.int(value)` stores `Math.floor(value)`. -/
def int (value : ℚ) : Value := .int ⌊value⌋

def float (value : ℚ) : Value := .float value

def string (value : String) : Value := .string value

def bool (value : Bool) : Value := .bool value

def ok (value : Value) : Value := .result .ok value

def err (value : Value) : Value := .result .err value

def some (value : Value) : Value := .option .some (Option.some value)

def none : Value := .option .none Option.none

def unit : Value := .unit

end ValueFactory

/-- Truncation toward zero, as the specification words describe the
behaviour of `int(x)` ("truncates x toward zero"); written from the spec
for comparison against the source's `Math.floor`. -/
def specTruncTowardZero (x : ℚ) : Int :=
  if 0 ≤ x then ⌊x⌋ else ⌈x⌉

/-! ## VM (`src/runtime/vm/vm.ts`) -/

structure Principal where
  id : String
  roles : List String
deriving DecidableEq, Repr

structure BytecodeFunction where
  name : String
  version : SemanticVersion
  arity : Nat
  instructions : List Nat  -- instruction indices stand in for the stream; the
                           -- per-instruction semantics is `step` below
  requiredRoles : List String
  effects : List String
  pure : Bool
  idempotent : Bool
  locals : Nat
deriving DecidableEq, Repr

structure BytecodeModule where
  name : String
  version : String
  functions : List (String × BytecodeFunction)
deriving DecidableEq, Repr

inductive VMErr where
  | vm (message : String)
  | security (message : String)
  | typeMismatch (expected : String) (actual : String)
  | crash  -- host-level failure (the JS source would operate on `undefined`)
deriving DecidableEq, Repr

/-- The message built by `checkSecurity` when it throws. -/
def securityErrorMsg (fn : BytecodeFunction) (principal : Principal) : String :=
  "Permission denied: " ++ fn.name ++ " requires one of [" ++
    String.intercalate ", " fn.requiredRoles ++ "], principal has [" ++
    String.intercalate ", " principal.roles ++ "]"

/-- `VM.checkSecurity`: `some msg` models a thrown `SecurityError`. -/
def checkSecurity (fn : BytecodeFunction) (principal : Principal) : Option String :=
  if fn.requiredRoles.isEmpty then none
  else if fn.requiredRoles.any (fun role => principal.roles.contains role) then none
  else some (securityErrorMsg fn principal)

/-- The entry sequence of `VM.execute`: function lookup, arity check,
security gate (the body execution that follows is independent of the gate). -/
def executePrelude (module : BytecodeModule) (functionName : String)
    (args : List Value) (principal : Principal) : Except VMErr BytecodeFunction :=
  match mapGet module.functions functionName with
  | none => .error (.vm ("Function not found: " ++ functionName))
  | some fn =>
      if args.length ≠ fn.arity then
        .error (.vm ("Arity mismatch: " ++ functionName ++ " expects " ++
          toString fn.arity ++ " arguments, got " ++ toString args.length))
      else
        match checkSecurity fn principal with
        | some msg => .error (.security msg)
        | none => .ok fn

/-! ### Instruction semantics -/

inductive Instr where
  | push (value : Value)
  | pop
  | dup
  | swap
  | loadVar (name : String)
  | storeVar (name : String)
  | loadArg (index : Nat)
  | jump (offset : Int)
  | jumpIfFalse (offset : Int)
  | jumpIfTrue (offset : Int)
  | add
  | sub
  | mul
  | div
  | mod
  | neg
  | makeOk
  | makeErr
  | ret
  | halt

/-- Per-execution VM state: operand stack (head = top of stack), the
frame's local-variable map, the argument register file, the instruction
pointer and the halt flag. -/
structure VMSt where
  stack : List Value
  locals : List (String × Value)
  args : List Value
  ip : Int
  halted : Bool

/-- `executeBinaryOp`: pop `b` then `a`, push `op(a, b)`. -/
def binOp (st : VMSt) (op : Value → Value → Except VMErr Value) : Except VMErr VMSt :=
  match st.stack with
  | b :: a :: rest => do
      let v ← op a b
      .ok { st with stack := v :: rest, ip := st.ip + 1 }
  | _ => .error .crash

/-- One iteration of the dispatch loop: `executeInstruction` followed by
the loop's `state.ip++` (jumps pre-compensate by setting `offset - 1`). -/
def step (st : VMSt) (instr : Instr) : Except VMErr VMSt :=
  match instr with
  | .push v => .ok { st with stack := v :: st.stack, ip := st.ip + 1 }
  | .pop =>
      match st.stack with
      | _ :: rest => .ok { st with stack := rest, ip := st.ip + 1 }
      | [] => .error .crash
  | .dup =>
      match st.stack with
      | top :: rest => .ok { st with stack := top :: top :: rest, ip := st.ip + 1 }
      | [] => .error .crash
  | .swap =>
      match st.stack with
      | a :: b :: rest => .ok { st with stack := b :: a :: rest, ip := st.ip + 1 }
      | _ => .error .crash
  | .loadVar name =>
      match mapGet st.locals name with
      | some v => .ok { st with stack := v :: st.stack, ip := st.ip + 1 }
      | none => .error (.vm ("Undefined variable: " ++ name))
  | .storeVar name =>
      -- `state.stack[state.stack.length - 1]` — read without popping
      match st.stack with
      | top :: _ =>
          .ok { st with locals := mapSet st.locals name top, ip := st.ip + 1 }
      | [] => .error .crash
  | .loadArg index =>
      if h : index < st.args.length then
        .ok { st with stack := st.args.get ⟨index, h⟩ :: st.stack, ip := st.ip + 1 }
      else .error (.vm ("Argument index out of bounds: " ++ toString index))
  | .jump offset => .ok { st with ip := offset - 1 + 1 }
  | .jumpIfFalse offset =>
      match st.stack with
      | cond :: rest =>
          match cond with
          | .bool b =>
              if b then .ok { st with stack := rest, ip := st.ip + 1 }
              else .ok { st with stack := rest, ip := offset - 1 + 1 }
          | v => .error (.typeMismatch "bool" v.typeTag)
      | [] => .error .crash
  | .jumpIfTrue offset =>
      match st.stack with
      | cond :: rest =>
          match cond with
          | .bool b =>
              if b then .ok { st with stack := rest, ip := offset - 1 + 1 }
              else .ok { st with stack := rest, ip := st.ip + 1 }
          | v => .error (.typeMismatch "bool" v.typeTag)
      | [] => .error .crash
  | .add =>
      binOp st fun a b =>
        match a, b with
        | .int x, .int y => .ok (ValueFactory.int (x + y))
        | .float x, .float y => .ok (ValueFactory.float (x + y))
        | .string x, .string y => .ok (ValueFactory.string (x ++ y))
        | _, _ => .error (.typeMismatch "int, float, or string"
            (a.typeTag ++ ", " ++ b.typeTag))
  | .sub =>
      binOp st fun a b =>
        match a, b with
        | .int x, .int y => .ok (ValueFactory.int (x - y))
        | .float x, .float y => .ok (ValueFactory.float (x - y))
        | _, _ => .error (.typeMismatch "int or float" (a.typeTag ++ ", " ++ b.typeTag))
  | .mul =>
      binOp st fun a b =>
        match a, b with
        | .int x, .int y => .ok (ValueFactory.int (x * y))
        | .float x, .float y => .ok (ValueFactory.float (x * y))
        | _, _ => .error (.typeMismatch "int or float" (a.typeTag ++ ", " ++ b.typeTag))
  | .div =>
      binOp st fun a b =>
        match a, b with
        | .int x, .int y =>
            if y = 0 then .ok (ValueFactory.err (ValueFactory.string "Division by zero"))
            else .ok (ValueFactory.int ((x : ℚ) / (y : ℚ)))  -- Math.floor(a / b)
        | .float x, .float y =>
            if y = 0 then .ok (ValueFactory.err (ValueFactory.string "Division by zero"))
            else .ok (ValueFactory.float (x / y))
        | _, _ => .error (.typeMismatch "int or float" (a.typeTag ++ ", " ++ b.typeTag))
  | .mod =>
      binOp st fun a b =>
        match a, b with
        | .int x, .int y => .ok (ValueFactory.int (Int.tmod x y : Int))
        | _, _ => .error (.typeMismatch "int" (a.typeTag ++ ", " ++ b.typeTag))
  | .neg =>
      match st.stack with
      | v :: rest =>
          match v with
          | .int x => .ok { st with stack := ValueFactory.int (-x : Int) :: rest, ip := st.ip + 1 }
          | .float x => .ok { st with stack := ValueFactory.float (-x) :: rest, ip := st.ip + 1 }
          | _ => .error (.typeMismatch "int or float" v.typeTag)
      | [] => .error .crash
  | .makeOk =>
      match st.stack with
      | v :: rest => .ok { st with stack := ValueFactory.ok v :: rest, ip := st.ip + 1 }
      | [] => .error .crash
  | .makeErr =>
      match st.stack with
      | v :: rest => .ok { st with stack := ValueFactory.err v :: rest, ip := st.ip + 1 }
      | [] => .error .crash
  | .ret => .ok { st with halted := true, ip := st.ip + 1 }
  | .halt => .ok { st with halted := true, ip := st.ip + 1 }

end Corelang

namespace Corelang

/-! ### Security gate (claim C2) -/

theorem requiredRoles_any_iff (fn : BytecodeFunction) (principal : Principal) :
    (fn.requiredRoles.any fun role => principal.roles.contains role) = true ↔
      ∃ r ∈ fn.requiredRoles, r ∈ principal.roles := by
  simp [List.any_eq_true, List.contains, List.elem_iff]

theorem checkSecurity_none_iff (fn : BytecodeFunction) (principal : Principal) :
    checkSecurity fn principal = none ↔
      (fn.requiredRoles = [] ∨ ∃ r ∈ fn.requiredRoles, r ∈ principal.roles) := by
  unfold checkSecurity
  by_cases h : fn.requiredRoles.isEmpty
  · simp [h, List.isEmpty_iff.mp h]
  · rw [if_neg (by simp [h])]
    by_cases h2 : (fn.requiredRoles.any fun role => principal.roles.contains role) = true
    · rw [if_pos h2]
      simp [List.isEmpty_iff] at h
      simp [h, (requiredRoles_any_iff fn principal).mp h2]
    · rw [if_neg h2]
      rw [requiredRoles_any_iff] at h2
      simp [List.isEmpty_iff] at h
      simp [h, h2]

theorem checkSecurity_some_iff (fn : BytecodeFunction) (principal : Principal) :
    checkSecurity fn principal = some (securityErrorMsg fn principal) ↔
      (fn.requiredRoles ≠ [] ∧ ∀ r ∈ fn.requiredRoles, r ∉ principal.roles) := by
  constructor
  · intro h
    have hn : checkSecurity fn principal ≠ none := by simp [h]
    rw [Ne, checkSecurity_none_iff] at hn
    push_neg at hn
    exact ⟨hn.1, hn.2⟩
  · intro ⟨h1, h2⟩
    have hA : fn.requiredRoles.isEmpty = false := by
      simp [List.isEmpty_iff, h1]
    have hB : (fn.requiredRoles.any fun role => principal.roles.contains role) = false := by
      rw [Bool.eq_false_iff, Ne, requiredRoles_any_iff]
      push_neg
      exact h2
    unfold checkSecurity
    rw [hA, hB]
    simp

/-- C2: the VM security gate raises a `SecurityError` if and only if the
function declares at least one required role and the principal holds none
of them (by string membership); in particular a function with no declared
required roles passes the gate for every principal. Both `VM.execute` and
the internal `CALL` dispatch invoke this same `checkSecurity` gate. -/
theorem securityGate_raises_iff (module : BytecodeModule) (fn : BytecodeFunction)
    (functionName : String) (args : List Value) (principal : Principal)
    (hfn : mapGet module.functions functionName = some fn)
    (harity : args.length = fn.arity) :
    (executePrelude module functionName args principal =
        .error (.security (securityErrorMsg fn principal)) ↔
      (fn.requiredRoles ≠ [] ∧ ∀ r ∈ fn.requiredRoles, r ∉ principal.roles)) ∧
    (checkSecurity fn principal = none ↔
      (fn.requiredRoles = [] ∨ ∃ r ∈ fn.requiredRoles, r ∈ principal.roles)) := by
  refine ⟨?_, checkSecurity_none_iff fn principal⟩
  unfold executePrelude
  rw [hfn]
  dsimp only
  rw [if_neg (by simp [harity])]
  constructor
  · intro h
    rw [← checkSecurity_some_iff]
    rcases hcs : checkSecurity fn principal with _ | msg
    · rw [hcs] at h
      exact absurd h (by simp)
    · rw [hcs] at h
      simp only [Except.error.injEq, VMErr.security.injEq] at h
      rw [h]
  · intro h
    rw [← checkSecurity_some_iff] at h
    rw [h]

def adminOnlyFn : BytecodeFunction :=
  { name := "admin_only", version := ⟨1, 0, 0, none, none⟩, arity := 0,
    instructions := [], requiredRoles := ["admin"], effects := [],
    pure := false, idempotent := false, locals := 0 }

def demoModule : BytecodeModule :=
  { name := "test", version := "1.0.0", functions := [("admin_only:v1", adminOnlyFn)] }

def viewerPrincipal : Principal := { id := "u", roles := ["viewer"] }

/-- Witness for C2: calling the `admin`-gated function with a principal
holding only `viewer` throws `SecurityError`. -/
theorem securityGate_raises_iff_witness :
    executePrelude demoModule "admin_only:v1" [] viewerPrincipal =
      .error (.security (securityErrorMsg adminOnlyFn viewerPrincipal)) :=
  (securityGate_raises_iff demoModule adminOnlyFn "admin_only:v1" [] viewerPrincipal
    rfl rfl).1.mpr (by decide)

/-! ### DIV by zero (claim C4) -/

/-- C4: executing `DIV` with an integer divisor equal to `0`, or a float
divisor equal to `0`, pushes `err(string "Division by zero")` in place of
a numeric result and does not raise a VM error. -/
theorem divByZero_pushes_err (st : VMSt) :
    (∀ (x : Int) (rest : List Value),
      st.stack = Value.int 0 :: Value.int x :: rest →
      step st .div = .ok { st with
        stack := ValueFactory.err (ValueFactory.string "Division by zero") :: rest,
        ip := st.ip + 1 }) ∧
    (∀ (q : ℚ) (rest : List Value),
      st.stack = Value.float 0 :: Value.float q :: rest →
      step st .div = .ok { st with
        stack := ValueFactory.err (ValueFactory.string "Division by zero") :: rest,
        ip := st.ip + 1 }) := by
  constructor
  · intro x rest h
    simp only [step, binOp, h]
    rfl
  · intro q rest h
    simp only [step, binOp, h]
    rfl

def divIntState : VMSt :=
  { stack := [Value.int 0, Value.int 7], locals := [], args := [], ip := 0, halted := false }

def divFloatState : VMSt :=
  { stack := [Value.float 0, Value.float (5/2)], locals := [], args := [],
    ip := 3, halted := false }

/-- Witness for C4 at `7 / 0` (int) and `2.5 / 0.0` (float). -/
theorem divByZero_pushes_err_witness :
    step divIntState .div = .ok { divIntState with
      stack := [ValueFactory.err (ValueFactory.string "Division by zero")],
      ip := divIntState.ip + 1 } ∧
    step divFloatState .div = .ok { divFloatState with
      stack := [ValueFactory.err (ValueFactory.string "Division by zero")],
      ip := divFloatState.ip + 1 } :=
  ⟨(divByZero_pushes_err divIntState).1 7 [] rfl,
   (divByZero_pushes_err divFloatState).2 (5/2) [] rfl⟩

/-! ### STORE_VAR does not pop (claim C5) -/

/-- C5: on a non-empty stack, `STORE_VAR name` binds the local `name` to
the top-of-stack value and leaves the operand stack unchanged (the stored
value stays on top); apart from the advancing instruction pointer, every
other state component is unchanged (the result is a record update of the
input state touching only `locals` and `ip`). -/
theorem storeVar_keeps_stack (st : VMSt) (name : String) (v : Value) (rest : List Value)
    (h : st.stack = v :: rest) :
    step st (.storeVar name) =
      .ok { st with locals := mapSet st.locals name v, ip := st.ip + 1 } ∧
    ({ st with locals := mapSet st.locals name v, ip := st.ip + 1 } : VMSt).stack
      = st.stack ∧
    mapGet (mapSet st.locals name v) name = some v := by
  refine ⟨?_, rfl, mapGet_mapSet_self st.locals name v⟩
  simp [step, h]

def storeVarState : VMSt :=
  { stack := [Value.int 42, Value.bool true], locals := [("y", Value.unit)],
    args := [Value.string "a"], ip := 5, halted := false }

/-- Witness for C5 on a concrete two-element stack. -/
theorem storeVar_keeps_stack_witness :
    step storeVarState (.storeVar "x") =
      .ok { storeVarState with
        locals := mapSet storeVarState.locals "x" (Value.int 42),
        ip := storeVarState.ip + 1 } ∧
    mapGet (mapSet storeVarState.locals "x" (Value.int 42)) "x" = some (Value.int 42) :=
  ⟨(storeVar_keeps_stack storeVarState "x" (Value.int 42) [Value.bool true] rfl).1,
   (storeVar_keeps_stack storeVarState "x" (Value.int 42) [Value.bool true] rfl).2.2⟩

/-! ### int construction (claim C8) -/

/-- C8 counterexample: the claim "int(x) truncates toward zero for every
number x" is false — the source applies `Math.floor`, and at `x = -1.5`
floor gives `-2` while truncation toward zero gives `-1`. -/
theorem valueFactoryInt_not_truncation :
    ¬ (∀ x : ℚ, ValueFactory.int x = Value.int (specTruncTowardZero x)) := by
  intro h
  have h2 := h (-(3 : ℚ)/2)
  have hfloor : (⌊-(3 : ℚ)/2⌋ : Int) = -2 := by norm_num
  have hceil : specTruncTowardZero (-(3 : ℚ)/2) = -1 := by
    unfold specTruncTowardZero
    rw [if_neg (by norm_num), neg_div, Int.ceil_neg]
    norm_num
  rw [ValueFactory.int, hfloor, hceil] at h2
  exact absurd (Value.int.inj h2) (by norm_num)

/-- C8 amended: `int(x)` stores `Math.floor(x)` for every number `x`; this
coincides with truncation toward zero exactly on the non-negative inputs
(so `int(-1.5)` is `-2`, not `-1`). -/
theorem valueFactoryInt_floors (x : ℚ) (h : 0 ≤ x) :
    (∀ y : ℚ, ValueFactory.int y = Value.int ⌊y⌋) ∧
    ValueFactory.int x = Value.int (specTruncTowardZero x) := by
  refine ⟨fun _ => rfl, ?_⟩
  simp [ValueFactory.int, specTruncTowardZero, h]

/-- Witness for C8 (amended) at `x = 5/2`. -/
theorem valueFactoryInt_floors_witness :
    ValueFactory.int (5/2 : ℚ) = Value.int (specTruncTowardZero (5/2 : ℚ)) :=
  (valueFactoryInt_floors (5/2 : ℚ) (by norm_num)).2

end Corelang

namespace Corelang

/-! ## AST security / versioning nodes (`src/compiler/ast/types.ts`)

Expression bodies and source spans are not consulted by any of the
operations embedded here and are left out of the node records. -/

inductive ClassificationLevel where
  | public
  | internal
  | confidential
  | restricted
deriving DecidableEq, Repr

inductive StabilityLevel where
  | stable
  | beta
  | alpha
  | deprecated
deriving DecidableEq, Repr

structure VersionInfo where
  version : String
  replaces : Option (List String)
  stability : Option StabilityLevel
  deprecated : Option Bool
  rollbackSafe : Option Bool
deriving DecidableEq, Repr

inductive TypeExpr where
  | primitive (name : String)
  | named (name : String) (version : Option String)
  | generic (ctorName : String) (typeArgs : List TypeExpr)

structure ParameterNode where
  name : String
  paramType : TypeExpr
  optional : Bool

structure EffectDeclaration where
  effectType : String
  target : String
  classification : Option ClassificationLevel
deriving DecidableEq, Repr

structure SecurityAttributes where
  requiredRoles : List String
  requiredCapabilities : List String
  requiredPermissions : List String
  auditRequired : Bool
  handlesSecrets : Bool
  crossesBoundary : Bool
deriving DecidableEq, Repr

structure FunctionMetadata where
  doc : Option String
  pure : Option Bool
deriving DecidableEq, Repr

structure FunctionNode where
  name : String
  version : Option VersionInfo
  security : SecurityAttributes
  signature_inputs : List ParameterNode
  signature_outputs : List ParameterNode
  effects : List EffectDeclaration
  metadata : FunctionMetadata

structure FieldDefNode where
  name : String
  fieldType : TypeExpr
  classification : Option ClassificationLevel

structure TypeDefNode where
  name : String
  version : Option VersionInfo
  fields : List FieldDefNode

structure RoleNode where
  name : String
  permissions : List String
  inherits : List String
deriving DecidableEq, Repr

structure PermissionNode where
  name : String
  description : Option String
  classification : Option ClassificationLevel
  auditRequired : Bool
deriving DecidableEq, Repr

inductive RuleEffect where
  | allow
  | deny
deriving DecidableEq, Repr

inductive RuleVersionConstraint where
  | all
  | stableOnly
  | specific (versions : List String)
  | range (range : String)
deriving DecidableEq, Repr

structure RuleNode where
  effect : RuleEffect
  roles : List String
  permissions : List String
  versionConstraint : Option RuleVersionConstraint
  reason : Option String
deriving DecidableEq, Repr

structure PolicyNode where
  name : String
  rules : List RuleNode
deriving DecidableEq, Repr

/-! ## Security context (`src/compiler/security/analyzer.ts`) -/

structure SecurityContext where
  roles : List (String × RoleNode)
  permissions : List (String × PermissionNode)
  policies : List (String × PolicyNode)
  functions : List (String × FunctionNode)
  types : List (String × TypeDefNode)

/-- `roleHasPermission`: recursion over `role.inherits` with **no** cycle
guard, modeled with explicit fuel; `none` marks fuel exhaustion, i.e. a
recursion that never bottoms out at any depth. The
`for (const parentRoleName of role.inherits)` loop is the fold
(left-to-right, stopping at the first `true`; a non-terminating recursive
call makes the whole loop non-terminating). -/
def roleHasPermissionFuel : Nat → SecurityContext → String → String → Option Bool
  | 0, _, _, _ => none
  | Nat.succ n, ctx, roleName, permissionName =>
      match mapGet ctx.roles roleName with
      | none => some false
      | some role =>
          if role.permissions.contains permissionName then some true
          else
            role.inherits.foldl
              (fun acc parent =>
                match acc with
                | none => none
                | some true => some true
                | some false => roleHasPermissionFuel n ctx parent permissionName)
              (some false)

/-- `getEffectiveRoles`: recursion over inheritance threading one shared
`visited` set (the source mutates a single `Set` across sibling calls).
Each nested call strictly grows `visited` with a name drawn from the
initial role or some registered role's `inherits` list, so the recursion
depth never exceeds `roleFuelBound`; fuel exhaustion is unreachable. -/
def getEffectiveRolesFuel : Nat → SecurityContext → String → List String →
    List String × List String
  | 0, _, _, visited => ([], visited)
  | Nat.succ n, ctx, roleName, visited =>
      if visited.contains roleName then ([], visited)
      else
        let visited' := roleName :: visited
        match mapGet ctx.roles roleName with
        | none => ([roleName], visited')
        | some role =>
            let folded :=
              role.inherits.foldl
                (fun (acc : List String × List String) parent =>
                  let step := getEffectiveRolesFuel n ctx parent acc.2
                  (acc.1 ++ step.1, step.2))
                ([], visited')
            (jsSetDedup (roleName :: folded.1), folded.2)

def roleFuelBound (ctx : SecurityContext) : Nat :=
  ctx.roles.foldl (fun acc kv => acc + kv.2.inherits.length + 1) 0 + 2

def getEffectiveRoles (ctx : SecurityContext) (roleName : String) : List String :=
  (getEffectiveRolesFuel (roleFuelBound ctx) ctx roleName []).1

end Corelang

namespace Corelang

/-! ## Policy evaluation engine (`src/unnamed/part_005`, `policy.ts`) -/

structure AccessDecision where
  allowed : Bool
  reason : String
  matchedRule : Option RuleNode
  policy : Option String
deriving DecidableEq, Repr

structure EvaluationContext where
  role : String
  functionName : String
  functionVersion : Option String
deriving DecidableEq, Repr

/-- `getAllFunctions().find(f => f.name === functionName)`. -/
def findFunctionByName (ctx : SecurityContext) (functionName : String) :
    Option FunctionNode :=
  (mapValues ctx.functions).find? (fun f => f.name == functionName)

/-- JS `String.prototype.includes` on character lists. -/
def jsIncludes (haystack needle : List Char) : Bool :=
  match haystack with
  | [] => needle.isEmpty
  | _ :: rest => needle.isPrefixOf haystack || jsIncludes rest needle

/-- `PolicyEvaluator.checkPermissions`. -/
def checkPermissions (fn : FunctionNode) (rulePermissions : List String) : Bool :=
  if fn.security.requiredPermissions.isEmpty then
    -- name-convention heuristic: some dotted part of a rule permission is a
    -- substring of the lowercased function name
    rulePermissions.any (fun perm =>
      (perm.splitOn ".").any (fun part =>
        jsIncludes (fn.name.toLower).data (part.toLower).data))
  else
    fn.security.requiredPermissions.any (fun perm => rulePermissions.contains perm)

/-- `PolicyEvaluator.checkVersionConstraint`. -/
def checkVersionConstraint (versionStr : String) (constraint : RuleVersionConstraint) :
    Bool :=
  match parseVersion versionStr with
  | none => false
  | some version =>
      match constraint with
      | .all => true
      | .stableOnly => version.prerelease.isNone
      | .specific versions =>
          versions.any (fun v =>
            match parseVersion v with
            | some constraintVersion =>
                version.major == constraintVersion.major &&
                version.minor == constraintVersion.minor &&
                version.patch == constraintVersion.patch
            | none => false)
      | .range r =>
          match parseConstraint r with
          | some parsedConstraint => satisfiesConstraint version parsedConstraint
          | none => false

/-- The match conditions of one rule inside `evaluatePolicy` (role match,
function lookup, permission match, and — only when both a constraint and a
`functionVersion` are present — the version-constraint check). -/
def ruleMatches (ctx : SecurityContext) (effectiveRoles : List String)
    (functionName : String) (functionVersion : Option String) (rule : RuleNode) :
    Bool :=
  rule.roles.any (fun ruleRole => effectiveRoles.contains ruleRole) &&
  (match findFunctionByName ctx functionName with
   | none => false
   | some fn =>
       checkPermissions fn rule.permissions &&
       (match rule.versionConstraint, functionVersion with
        | some constraint, some version => checkVersionConstraint version constraint
        | _, _ => true))

/-- The decision pushed by `evaluatePolicy` for a matching rule. -/
def mkRuleDecision (policy : PolicyNode) (rule : RuleNode) : AccessDecision :=
  { allowed := decide (rule.effect = .allow),
    reason :=
      if rule.effect = .allow then
        "Policy '" ++ policy.name ++ "' allows access: " ++ rule.reason.getD "rule matched"
      else
        "Policy '" ++ policy.name ++ "' denies access: " ++ rule.reason.getD "rule matched",
    matchedRule := some rule,
    policy := some policy.name }

/-- `PolicyEvaluator.evaluatePolicy`: all matching decisions of one policy
in rule order. -/
def evaluatePolicy (ctx : SecurityContext) (policy : PolicyNode)
    (effectiveRoles : List String) (functionName : String)
    (functionVersion : Option String) : List AccessDecision :=
  policy.rules.filterMap (fun rule =>
    if ruleMatches ctx effectiveRoles functionName functionVersion rule then
      some (mkRuleDecision policy rule)
    else none)

/-- All decisions collected by `evaluate` across policies, in policy and
rule order. -/
def evalDecisions (ctx : SecurityContext) (q : EvaluationContext) :
    List AccessDecision :=
  let effectiveRoles := getEffectiveRoles ctx q.role
  (mapValues ctx.policies).flatMap (fun policy =>
    evaluatePolicy ctx policy effectiveRoles q.functionName q.functionVersion)

/-- Predicate used to split decisions into the deny / allow buckets. -/
def decisionHasEffect (d : AccessDecision) (e : RuleEffect) : Bool :=
  match d.matchedRule with
  | some r => decide (r.effect = e)
  | none => false

/-- The deny bucket of `evaluate` (empty when the role does not exist and
the evaluator returns early). -/
def denyDecisions (ctx : SecurityContext) (q : EvaluationContext) :
    List AccessDecision :=
  match mapGet ctx.roles q.role with
  | none => []
  | some _ => (evalDecisions ctx q).filter (fun d => decisionHasEffect d .deny)

/-- The allow bucket of `evaluate`. -/
def allowDecisions (ctx : SecurityContext) (q : EvaluationContext) :
    List AccessDecision :=
  match mapGet ctx.roles q.role with
  | none => []
  | some _ => (evalDecisions ctx q).filter (fun d => decisionHasEffect d .allow)

/-- The `"no matching policy rule"` fallback decision. -/
def noMatchingRuleDecision : AccessDecision :=
  { allowed := false, reason := "No matching policy rule found",
    matchedRule := none, policy := none }

/-- `PolicyEvaluator.evaluate`. -/
def evaluate (ctx : SecurityContext) (q : EvaluationContext) : AccessDecision :=
  match mapGet ctx.roles q.role with
  | none =>
      { allowed := false, reason := "Role '" ++ q.role ++ "' does not exist",
        matchedRule := none, policy := none }
  | some _ =>
      match (evalDecisions ctx q).filter (fun d => decisionHasEffect d .deny) with
      | d :: _ => d
      | [] =>
          match (evalDecisions ctx q).filter (fun d => decisionHasEffect d .allow) with
          | d :: _ => d
          | [] =>
              if (mapValues ctx.policies).isEmpty then
                match findFunctionByName ctx q.functionName with
                | some fn =>
                    if ¬ fn.security.requiredRoles.isEmpty &&
                        fn.security.requiredRoles.any (fun requiredRole =>
                          (getEffectiveRoles ctx q.role).contains requiredRole) then
                      { allowed := true,
                        reason := "Role '" ++ q.role ++ "' has required role for function '"
                          ++ q.functionName ++ "' (no policies defined)",
                        matchedRule := none, policy := none }
                    else noMatchingRuleDecision
                | none => noMatchingRuleDecision
              else noMatchingRuleDecision

/-! ### Claim C1: deny precedence -/

theorem mem_evalDecisions_shape (ctx : SecurityContext) (q : EvaluationContext)
    (d : AccessDecision) (hm : d ∈ evalDecisions ctx q) :
    ∃ r, d.matchedRule = some r ∧ d.allowed = decide (r.effect = RuleEffect.allow) := by
  unfold evalDecisions at hm
  rw [List.mem_flatMap] at hm
  obtain ⟨policy, _, hd⟩ := hm
  unfold evaluatePolicy at hd
  rw [List.mem_filterMap] at hd
  obtain ⟨rule, _, hrule⟩ := hd
  split at hrule
  · cases hrule
    exact ⟨rule, rfl, rfl⟩
  · cases hrule

/-- C1: whenever at least one `deny` rule and at least one `allow` rule
match the query, `evaluate` returns the first matching deny decision: the
result is the head of the deny bucket, is not allowed, and its matched
rule has effect `deny`. -/
theorem policy_deny_precedence (ctx : SecurityContext) (q : EvaluationContext)
    (hd : denyDecisions ctx q ≠ []) (ha : allowDecisions ctx q ≠ []) :
    evaluate ctx q = (denyDecisions ctx q).headD noMatchingRuleDecision ∧
    (evaluate ctx q).allowed = false ∧
    ∃ r, (evaluate ctx q).matchedRule = some r ∧ r.effect = RuleEffect.deny := by
  rcases hrole : mapGet ctx.roles q.role with _ | role
  · rw [denyDecisions, hrole] at hd
    exact absurd rfl hd
  · have hdlist : denyDecisions ctx q =
        (evalDecisions ctx q).filter (fun d => decisionHasEffect d .deny) := by
      rw [denyDecisions, hrole]
    rcases hfd : (evalDecisions ctx q).filter (fun d => decisionHasEffect d .deny)
        with _ | ⟨d0, rest⟩
    · rw [hdlist, hfd] at hd
      exact absurd rfl hd
    · have heval : evaluate ctx q = d0 := by
        rw [evaluate, hrole, hfd]
      have hmem : d0 ∈ (evalDecisions ctx q).filter (fun d => decisionHasEffect d .deny) := by
        rw [hfd]
        exact List.mem_cons_self d0 rest
      rw [List.mem_filter] at hmem
      obtain ⟨hmemList, hpred⟩ := hmem
      obtain ⟨r, hrule, hallowed⟩ := mem_evalDecisions_shape ctx q d0 hmemList
      unfold decisionHasEffect at hpred
      rw [hrule] at hpred
      simp only [decide_eq_true_eq] at hpred
      refine ⟨by rw [heval, hdlist, hfd]; rfl, ?_, ?_⟩
      · rw [heval, hallowed, hpred]
        rfl
      · exact ⟨r, by rw [heval, hrule], hpred⟩

/-- Role/policy/function mirroring the source's
"should prioritize deny over allow" test module. -/
def userRole : RoleNode := { name := "user", permissions := ["data.access"], inherits := [] }

def accessDataFn : FunctionNode :=
  { name := "access_data",
    version := some { version := "v1", replaces := none, stability := none,
                      deprecated := none, rollbackSafe := none },
    security := { requiredRoles := ["user"], requiredCapabilities := [],
                  requiredPermissions := ["data.access"], auditRequired := false,
                  handlesSecrets := false, crossesBoundary := false },
    signature_inputs := [], signature_outputs := [],
    effects := [], metadata := { doc := none, pure := none } }

def conflictAllowRule : RuleNode :=
  { effect := .allow, roles := ["user"], permissions := ["data.access"],
    versionConstraint := some .all, reason := none }

def conflictDenyRule : RuleNode :=
  { effect := .deny, roles := ["user"], permissions := ["data.access"],
    versionConstraint := some .all, reason := none }

def conflictPolicy : PolicyNode :=
  { name := "conflict", rules := [conflictAllowRule, conflictDenyRule] }

def conflictContext : SecurityContext :=
  { roles := [("user", userRole)], permissions := [],
    policies := [("conflict", conflictPolicy)],
    functions := [("access_data", accessDataFn)], types := [] }

def conflictQuery : EvaluationContext :=
  { role := "user", functionName := "access_data", functionVersion := none }

/-- Witness for C1 on the conflicting allow/deny policy: the decision is
the deny one. -/
theorem policy_deny_precedence_witness :
    (evaluate conflictContext conflictQuery).allowed = false ∧
    ∃ r, (evaluate conflictContext conflictQuery).matchedRule = some r ∧
      r.effect = RuleEffect.deny :=
  (policy_deny_precedence conflictContext conflictQuery
    (by rw [show denyDecisions conflictContext conflictQuery =
          [mkRuleDecision conflictPolicy conflictDenyRule] from rfl]
        exact List.cons_ne_nil _ _)
    (by rw [show allowDecisions conflictContext conflictQuery =
          [mkRuleDecision conflictPolicy conflictAllowRule] from rfl]
        exact List.cons_ne_nil _ _)).2

/-! ### Claim C9: version constraints are skipped without a supplied version -/

/-- C9: when `evaluate` is called without a `functionVersion`, the
version-constraint check is skipped entirely — the match outcome of a rule
is independent of its `versionConstraint` field (first conjunct), and in
particular a constraint-carrying rule still matches and denies (second
conjunct, on the concrete context built from the source's test module,
whose deny rule carries an `all-versions` constraint). -/
theorem version_constraint_skipped_without_version :
    (∀ (ctx : SecurityContext) (effectiveRoles : List String)
       (functionName : String) (rule : RuleNode)
       (c₁ c₂ : Option RuleVersionConstraint),
      ruleMatches ctx effectiveRoles functionName none
          { rule with versionConstraint := c₁ } =
        ruleMatches ctx effectiveRoles functionName none
          { rule with versionConstraint := c₂ }) ∧
    (evaluate conflictContext conflictQuery).allowed = false := by
  constructor
  · intro ctx effectiveRoles functionName rule c₁ c₂
    unfold ruleMatches
    rcases findFunctionByName ctx functionName with _ | fn
    · rcases c₁ with _ | vc₁ <;> rcases c₂ with _ | vc₂ <;> rfl
    · rcases c₁ with _ | vc₁ <;> rcases c₂ with _ | vc₂ <;> rfl
  · rfl

/-! ### Claim C7: `roleHasPermission` under inheritance cycles -/

def roleCycleA : RoleNode := { name := "A", permissions := [], inherits := ["B"] }

def roleCycleB : RoleNode := { name := "B", permissions := [], inherits := ["A"] }

/-- A context whose role-inheritance graph is the two-cycle `A ↔ B`. -/
def cyclicContext : SecurityContext :=
  { roles := [("A", roleCycleA), ("B", roleCycleB)], permissions := [],
    policies := [], functions := [], types := [] }

theorem roleHasPermission_cycle_spins (fuel : Nat) :
    roleHasPermissionFuel fuel cyclicContext "A" "p" = none ∧
    roleHasPermissionFuel fuel cyclicContext "B" "p" = none := by
  induction fuel with
  | zero => exact ⟨rfl, rfl⟩
  | succ n ih =>
      constructor
      · have hstep : roleHasPermissionFuel (Nat.succ n) cyclicContext "A" "p" =
            roleHasPermissionFuel n cyclicContext "B" "p" := rfl
        rw [hstep, ih.2]
      · have hstep : roleHasPermissionFuel (Nat.succ n) cyclicContext "B" "p" =
            roleHasPermissionFuel n cyclicContext "A" "p" := rfl
        rw [hstep, ih.1]

/-- C7: the claim is right as a specification (every other inheritance
walk in the code carries a `visited` set) but `roleHasPermission` itself
has no cycle guard: on the cyclic context `A ↔ B` the recursion never
bottoms out — at every fuel depth the computation is still unfinished, so
the unbounded source recursion does not terminate and never returns a
boolean. -/
theorem roleHasPermission_cycle_diverges (fuel : Nat) :
    roleHasPermissionFuel fuel cyclicContext "A" "p" = none :=
  (roleHasPermission_cycle_spins fuel).1

end Corelang

namespace Corelang

/-! ## Version registry (`src/compiler/versioning/registry.ts`) -/

/-- Extracting `entity.name` / `entity.version` from the two node kinds
the registry is instantiated at. -/
class VersionedNode (T : Type) where
  nodeName : T → String
  nodeVersion : T → Option VersionInfo

instance : VersionedNode FunctionNode :=
  { nodeName := FunctionNode.name, nodeVersion := FunctionNode.version }

instance : VersionedNode TypeDefNode :=
  { nodeName := TypeDefNode.name, nodeVersion := TypeDefNode.version }

structure VersionedEntity (T : Type) where
  name : String
  version : SemanticVersion
  stability : StabilityLevel
  node : T
  replacedBy : Option SemanticVersion
  replaces : Option SemanticVersion
  deprecatedSince : Option String
  isRollbackSafe : Bool

structure VersionChain (T : Type) where
  name : String
  versions : List (String × VersionedEntity T)
  latestVersion : Option SemanticVersion
  latestStableVersion : Option SemanticVersion

structure VersionRegistry (T : Type) where
  chains : List (String × VersionChain T)

/-- The freshly created entity record of `register` (before replacement
and deprecation handling). -/
def mkVersionedEntity {T : Type} (entity : T) (vi : VersionInfo)
    (version : SemanticVersion) (name : String) : VersionedEntity T :=
  { name := name, version := version,
    stability := vi.stability.getD .alpha, node := entity,
    replacedBy := none, replaces := none, deprecatedSince := none,
    isRollbackSafe := vi.rollbackSafe.getD false }

/-- The replacement-metadata block of `register`: set `replaces` on the
new entity and, **only if the predecessor is already present**, point its
`replacedBy` forward. -/
def applyReplaces {T : Type} (vi : VersionInfo) (version : SemanticVersion)
    (base : VersionedEntity T) (versions : List (String × VersionedEntity T)) :
    VersionedEntity T × List (String × VersionedEntity T) :=
  match vi.replaces with
  | some (replacesStr :: _) =>
      match parseVersion replacesStr with
      | some replacesVersion =>
          let replacedKey := versionKey replacesVersion
          let versions' :=
            match mapGet versions replacedKey with
            | some replacedEntity =>
                mapSet versions replacedKey
                  { replacedEntity with replacedBy := some version }
            | none => versions
          ({ base with replaces := some replacesVersion }, versions')
      | none => (base, versions)
  | _ => (base, versions)

/-- The deprecation block of `register`. -/
def applyDeprecated {T : Type} (vi : VersionInfo) (ve : VersionedEntity T) :
    VersionedEntity T :=
  if vi.deprecated.getD false then { ve with deprecatedSince := some "unknown" } else ve

theorem applyReplaces_fst_replacedBy {T : Type} (vi : VersionInfo)
    (version : SemanticVersion) (base : VersionedEntity T)
    (versions : List (String × VersionedEntity T)) :
    (applyReplaces vi version base versions).1.replacedBy = base.replacedBy := by
  unfold applyReplaces
  rcases vi.replaces with _ | l
  · rfl
  · rcases l with _ | ⟨s, rest⟩
    · rfl
    · rcases hp : parseVersion s with _ | v
      · simp only [hp]
      · simp only [hp]

theorem applyDeprecated_replacedBy {T : Type} (vi : VersionInfo)
    (ve : VersionedEntity T) :
    (applyDeprecated vi ve).replacedBy = ve.replacedBy := by
  unfold applyDeprecated
  split
  · rfl
  · rfl

/-- The chain `register` operates on (get-or-create). -/
def registerChain {T : Type} [VersionedNode T] (reg : VersionRegistry T)
    (entity : T) : VersionChain T :=
  (mapGet reg.chains (VersionedNode.nodeName entity)).getD
    { name := VersionedNode.nodeName entity, versions := [],
      latestVersion := none, latestStableVersion := none }

/-- The entity record `register` finally stores under the new version key. -/
def registerVersioned {T : Type} [VersionedNode T] (reg : VersionRegistry T)
    (entity : T) (vi : VersionInfo) (version : SemanticVersion) :
    VersionedEntity T :=
  applyDeprecated vi
    (applyReplaces vi version
      (mkVersionedEntity entity vi version (VersionedNode.nodeName entity))
      (registerChain reg entity).versions).1

/-- The registry produced by a successful `register`. -/
def registerOk {T : Type} [VersionedNode T] (reg : VersionRegistry T)
    (entity : T) (vi : VersionInfo) (version : SemanticVersion) :
    VersionRegistry T :=
  let chain := registerChain reg entity
  let handled := applyReplaces vi version
    (mkVersionedEntity entity vi version (VersionedNode.nodeName entity))
    chain.versions
  let versioned := registerVersioned reg entity vi version
  let versions2 := mapSet handled.2 (versionKey version) versioned
  let latest' :=
    match chain.latestVersion with
    | none => some version
    | some lv =>
        if compareVersions version lv = .greater then some version else some lv
  let latestStable' :=
    if versioned.stability = .stable then
      match chain.latestStableVersion with
      | none => some version
      | some lv =>
          if compareVersions version lv = .greater then some version else some lv
    else chain.latestStableVersion
  { chains := mapSet reg.chains (VersionedNode.nodeName entity)
      { chain with
        versions := versions2,
        latestVersion := latest',
        latestStableVersion := latestStable' } }

/-- `VersionRegistry.register`; the `throw`s of the source become
`Except.error`. -/
def registerEntity {T : Type} [VersionedNode T] (reg : VersionRegistry T)
    (entity : T) : Except String (VersionRegistry T) :=
  match VersionedNode.nodeVersion entity with
  | none =>
      .error ("Entity " ++ VersionedNode.nodeName entity ++ " must have a version")
  | some vi =>
      match parseVersion vi.version with
      | none => .error ("Invalid version string: " ++ vi.version)
      | some version => .ok (registerOk reg entity vi version)

theorem registerEntity_eq {T : Type} [VersionedNode T] (reg : VersionRegistry T)
    (entity : T) (vi : VersionInfo) (version : SemanticVersion)
    (hvi : VersionedNode.nodeVersion entity = some vi)
    (hv : parseVersion vi.version = some version) :
    registerEntity reg entity = .ok (registerOk reg entity vi version) := by
  unfold registerEntity
  rw [hvi]
  dsimp only
  rw [hv]

/-- `VersionRegistry.get`. -/
def regGet {T : Type} (reg : VersionRegistry T) (name : String)
    (version : SemanticVersion) : Option (VersionedEntity T) :=
  match mapGet reg.chains name with
  | none => none
  | some chain => mapGet chain.versions (versionKey version)

theorem regGet_registerOk_self {T : Type} [VersionedNode T]
    (reg : VersionRegistry T) (entity : T) (vi : VersionInfo)
    (version : SemanticVersion) :
    regGet (registerOk reg entity vi version) (VersionedNode.nodeName entity)
      version = some (registerVersioned reg entity vi version) := by
  unfold regGet registerOk
  rw [mapGet_mapSet_self]
  exact mapGet_mapSet_self _ _ _

theorem registerVersioned_replacedBy {T : Type} [VersionedNode T]
    (reg : VersionRegistry T) (entity : T) (vi : VersionInfo)
    (version : SemanticVersion) :
    (registerVersioned reg entity vi version).replacedBy = none := by
  unfold registerVersioned
  rw [applyDeprecated_replacedBy, applyReplaces_fst_replacedBy]
  rfl

/-- `VersionRegistry.getReplacementChain`: walk `replacedBy` pointers.
The source's `while` loop has no cycle guard, so the walk carries fuel;
every claim below only exercises it on walks that stop by themselves. -/
def getReplacementChainFuel {T : Type} (fuel : Nat) (reg : VersionRegistry T)
    (name : String) (version : SemanticVersion) : List SemanticVersion :=
  version ::
    (match regGet reg name version with
     | some e =>
         match e.replacedBy with
         | some next =>
             match fuel with
             | 0 => []
             | Nat.succ n => getReplacementChainFuel n reg name next
         | none => []
     | none => [])

/-! ### Claim C10: back-links depend on registration order -/

/-- C10: if entity `S` (whose `replaces` names version `vP` of `P`) is
registered before `P`, then after both registrations the entry stored for
`P` has `replacedBy` unset and the replacement chain computed from `vP` is
just `[vP]` — it does not contain `S`'s version, so forward migration
paths from `P` skip `S`. Holds over an arbitrary initial registry. -/
theorem replacement_backlink_needs_order {T : Type} [VersionedNode T]
    (reg0 : VersionRegistry T) (S P : T) (viS viP : VersionInfo)
    (vS vP : SemanticVersion) (pstr : String) (restReplaces : List String)
    (hS : VersionedNode.nodeVersion S = some viS)
    (hSv : parseVersion viS.version = some vS)
    (hSrep : viS.replaces = some (pstr :: restReplaces))
    (hSp : parseVersion pstr = some vP)
    (hP : VersionedNode.nodeVersion P = some viP)
    (hPv : parseVersion viP.version = some vP)
    (hname : VersionedNode.nodeName S = VersionedNode.nodeName P)
    (hne : vS ≠ vP) :
    ∃ reg1 reg2,
      registerEntity reg0 S = .ok reg1 ∧
      registerEntity reg1 P = .ok reg2 ∧
      ∃ ent, regGet reg2 (VersionedNode.nodeName P) vP = some ent ∧
        ent.replacedBy = none ∧
        (∀ fuel, getReplacementChainFuel fuel reg2 (VersionedNode.nodeName P) vP = [vP]) ∧
        vS ∉ [vP] := by
  refine ⟨registerOk reg0 S viS vS,
    registerOk (registerOk reg0 S viS vS) P viP vP,
    registerEntity_eq reg0 S viS vS hS hSv,
    registerEntity_eq _ P viP vP hP hPv,
    registerVersioned (registerOk reg0 S viS vS) P viP vP,
    regGet_registerOk_self _ P viP vP,
    registerVersioned_replacedBy _ P viP vP, ?_, by simp [hne]⟩
  intro fuel
  unfold getReplacementChainFuel
  rw [regGet_registerOk_self _ P viP vP]
  dsimp only
  rw [registerVersioned_replacedBy _ P viP vP]

def calcV1Fn : FunctionNode :=
  { name := "calc",
    version := some { version := "v1.0.0", replaces := none, stability := some .stable,
                      deprecated := none, rollbackSafe := some true },
    security := { requiredRoles := [], requiredCapabilities := [],
                  requiredPermissions := [], auditRequired := false,
                  handlesSecrets := false, crossesBoundary := false },
    signature_inputs := [], signature_outputs := [],
    effects := [], metadata := { doc := none, pure := some true } }

def calcV2Fn : FunctionNode :=
  { calcV1Fn with
    version := some { version := "v2.0.0", replaces := some ["v1.0.0"],
                      stability := some .stable, deprecated := none,
                      rollbackSafe := some true } }

def emptyFnRegistry : VersionRegistry FunctionNode := { chains := [] }

/-- Witness for C10: registering `calc v2.0.0 (replaces v1.0.0)` before
`calc v1.0.0` leaves `v1.0.0` without a `replacedBy` back-link. -/
theorem replacement_backlink_needs_order_witness :
    ∃ reg1 reg2,
      registerEntity emptyFnRegistry calcV2Fn = .ok reg1 ∧
      registerEntity reg1 calcV1Fn = .ok reg2 ∧
      ∃ ent, regGet reg2 (VersionedNode.nodeName calcV1Fn)
          ⟨1, 0, 0, none, none⟩ = some ent ∧
        ent.replacedBy = none ∧
        (∀ fuel, getReplacementChainFuel fuel reg2
          (VersionedNode.nodeName calcV1Fn) ⟨1, 0, 0, none, none⟩ =
            [⟨1, 0, 0, none, none⟩]) ∧
        (⟨2, 0, 0, none, none⟩ : SemanticVersion) ∉
          [(⟨1, 0, 0, none, none⟩ : SemanticVersion)] :=
  replacement_backlink_needs_order emptyFnRegistry calcV2Fn calcV1Fn
    { version := "v2.0.0", replaces := some ["v1.0.0"], stability := some .stable,
      deprecated := none, rollbackSafe := some true }
    { version := "v1.0.0", replaces := none, stability := some .stable,
      deprecated := none, rollbackSafe := some true }
    ⟨2, 0, 0, none, none⟩ ⟨1, 0, 0, none, none⟩ "v1.0.0" []
    rfl rfl rfl rfl rfl rfl rfl (by decide)

end Corelang

namespace Corelang

/-! ## Compatibility analyzer (`src/unnamed/part_008`, `compatibility.ts`) -/

inductive CompatibilityLevel where
  | fullyCompatible
  | backwardCompatible
  | forwardCompatible
  | breaking
deriving DecidableEq, Repr

inductive BreakingChangeType where
  | inputTypeChanged
  | outputTypeChanged
  | parameterAdded
  | parameterRemoved
  | effectAdded
  | effectRemoved
  | securityStricter
  | securityLoosened
  | purityChanged
deriving DecidableEq, Repr

inductive ChangeSeverity where
  | error
  | warning
deriving DecidableEq, Repr

structure BreakingChange where
  btype : BreakingChangeType
  description : String
  severity : ChangeSeverity
deriving DecidableEq, Repr

structure CompatibilityResult where
  level : CompatibilityLevel
  breakingChanges : List BreakingChange
  warnings : List String
deriving DecidableEq, Repr

mutual

/-- `typeToString`: pretty-print a type expression for string comparison. -/
def typeToString : TypeExpr → String
  | .primitive name => name
  | .named name version =>
      match version with
      | some v => name ++ ":" ++ v
      | none => name
  | .generic ctorName typeArgs =>
      ctorName ++ "<" ++ typeListToString typeArgs ++ ">"

/-- `typeArgs.map(typeToString).join(', ')`. -/
def typeListToString : List TypeExpr → String
  | [] => ""
  | [t] => typeToString t
  | t :: rest => typeToString t ++ ", " ++ typeListToString rest

end

/-- The `i < oldParams.length` loop of `checkParameterCompatibility`:
removed parameters and pairwise type changes (the source tags output type
changes with `InputTypeChanged` as well). -/
def paramRemovedOrChanged (label : String) :
    List ParameterNode → List ParameterNode → List BreakingChange
  | [], _ => []
  | o :: os, [] =>
      { btype := .parameterRemoved,
        description := label ++ " parameter '" ++ o.name ++ "' was removed",
        severity := .error } :: paramRemovedOrChanged label os []
  | o :: os, n :: ns =>
      (if typeToString o.paramType ≠ typeToString n.paramType then
        [{ btype := .inputTypeChanged,
           description := label ++ " parameter '" ++ o.name ++ "' type changed from "
             ++ typeToString o.paramType ++ " to " ++ typeToString n.paramType,
           severity := .error }]
       else []) ++ paramRemovedOrChanged label os ns

/-- The `i ≥ oldParams.length` loop: added required parameters. -/
def paramAdded (label : String) (oldLen : Nat) (newParams : List ParameterNode) :
    List BreakingChange :=
  (newParams.drop oldLen).filterMap (fun p =>
    if ¬ p.optional then
      some { btype := .parameterAdded,
             description := "Required " ++ label ++ " parameter '" ++ p.name
               ++ "' was added",
             severity := .error }
    else none)

def checkParameterCompatibility (oldParams newParams : List ParameterNode)
    (label : String) : List BreakingChange :=
  paramRemovedOrChanged label oldParams newParams ++
    paramAdded label oldParams.length newParams

def checkEffectCompatibility (oldEffects newEffects : List EffectDeclaration) :
    List BreakingChange :=
  let oldEffectSet := jsSetDedup (oldEffects.map (fun e => e.effectType ++ ":" ++ e.target))
  let newEffectSet := jsSetDedup (newEffects.map (fun e => e.effectType ++ ":" ++ e.target))
  (oldEffectSet.filterMap (fun oldEffect =>
    if ¬ newEffectSet.contains oldEffect then
      some { btype := .effectRemoved,
             description := "Effect '" ++ oldEffect ++ "' was removed",
             severity := .warning }
    else none)) ++
  (newEffectSet.filterMap (fun newEffect =>
    if ¬ oldEffectSet.contains newEffect then
      some { btype := .effectAdded,
             description := "New effect '" ++ newEffect ++ "' was added",
             severity := .error }
    else none))

def checkSecurityCompatibility (oldSecurity newSecurity : SecurityAttributes) :
    List BreakingChange :=
  let newRolesSet := jsSetDedup newSecurity.requiredRoles
  let oldRolesSet := jsSetDedup oldSecurity.requiredRoles
  (newRolesSet.filterMap (fun newRole =>
    if ¬ oldRolesSet.contains newRole then
      some { btype := .securityStricter,
             description := "New role requirement added: '" ++ newRole ++ "'",
             severity := .error }
    else none)) ++
  (oldRolesSet.filterMap (fun oldRole =>
    if ¬ newRolesSet.contains oldRole then
      some { btype := .securityLoosened,
             description := "Role requirement removed: '" ++ oldRole ++ "'",
             severity := .warning }
    else none)) ++
  (newSecurity.requiredCapabilities.filterMap (fun newCap =>
    if ¬ oldSecurity.requiredCapabilities.contains newCap then
      some { btype := .securityStricter,
             description := "New capability requirement added: '" ++ newCap ++ "'",
             severity := .error }
    else none)) ++
  (if newSecurity.auditRequired ∧ ¬ oldSecurity.auditRequired then
    [{ btype := .securityStricter,
       description := "Audit logging is now required",
       severity := .warning }]
   else [])

def determineCompatibilityLevel (breakingChanges : List BreakingChange) :
    CompatibilityLevel :=
  if (breakingChanges.filter (fun c => c.severity == .error)).length > 0 then
    .breaking
  else if breakingChanges.length > 0 then
    .backwardCompatible
  else
    .fullyCompatible

/-- JS truthiness of the optional `metadata.pure` flag. -/
def metaPure (m : FunctionMetadata) : Bool := m.pure == some true

def checkFunctionCompatibility (oldFn newFn : FunctionNode) : CompatibilityResult :=
  let breakingChanges :=
    checkParameterCompatibility oldFn.signature_inputs newFn.signature_inputs "input" ++
    checkParameterCompatibility oldFn.signature_outputs newFn.signature_outputs "output" ++
    checkEffectCompatibility oldFn.effects newFn.effects ++
    checkSecurityCompatibility oldFn.security newFn.security ++
    (if metaPure oldFn.metadata ∧ ¬ metaPure newFn.metadata then
      [{ btype := .purityChanged,
         description := "Function is no longer pure (now has side effects)",
         severity := .error }]
     else [])
  { level := determineCompatibilityLevel breakingChanges,
    breakingChanges := breakingChanges,
    warnings :=
      if metaPure newFn.metadata ∧ ¬ metaPure oldFn.metadata then
        ["Function became pure (side effects removed)"]
      else [] }

def classIndex (level : Option ClassificationLevel) : Nat :=
  match level with
  | none => 0
  | some .public => 0
  | some .internal => 1
  | some .confidential => 2
  | some .restricted => 3

def isMoreRestrictive (newLevel oldLevel : Option ClassificationLevel) : Bool :=
  classIndex newLevel > classIndex oldLevel

def classificationName (level : Option ClassificationLevel) : String :=
  match level with
  | none => "undefined"
  | some .public => "public"
  | some .internal => "internal"
  | some .confidential => "confidential"
  | some .restricted => "restricted"

/-- The per-old-field body of `checkTypeCompatibility` (removal, type
change, classification change). -/
def typeFieldChanges (newFields : List (String × FieldDefNode))
    (entry : String × FieldDefNode) : List BreakingChange × List String :=
  match mapGet newFields entry.1 with
  | none =>
      ([{ btype := .parameterRemoved,
          description := "Field '" ++ entry.1 ++ "' was removed",
          severity := .error }], [])
  | some newField =>
      ((if typeToString entry.2.fieldType ≠ typeToString newField.fieldType then
          [{ btype := .inputTypeChanged,
             description := "Field '" ++ entry.1 ++ "' type changed from "
               ++ typeToString entry.2.fieldType ++ " to "
               ++ typeToString newField.fieldType,
             severity := .error }]
        else []) ++
       (if entry.2.classification ≠ newField.classification ∧
           ¬ isMoreRestrictive newField.classification entry.2.classification then
          [{ btype := .securityLoosened,
             description := "Field '" ++ entry.1 ++ "' classification became less restrictive: "
               ++ classificationName entry.2.classification ++ " → "
               ++ classificationName newField.classification,
             severity := .warning }]
        else []),
       if entry.2.classification ≠ newField.classification ∧
           isMoreRestrictive newField.classification entry.2.classification then
         ["Field '" ++ entry.1 ++ "' classification became more restrictive: "
           ++ classificationName entry.2.classification ++ " → "
           ++ classificationName newField.classification]
       else [])

def checkTypeCompatibility (oldType newType : TypeDefNode) : CompatibilityResult :=
  let oldFields := oldType.fields.foldl (fun acc f => mapSet acc f.name f) []
  let newFields := newType.fields.foldl (fun acc f => mapSet acc f.name f) []
  let perField := oldFields.map (typeFieldChanges newFields)
  let breakingChanges := (perField.map (·.1)).flatten
  let warnings := (perField.map (·.2)).flatten ++
    newFields.filterMap (fun entry =>
      if (mapGet oldFields entry.1).isNone then
        some ("Field '" ++ entry.1 ++ "' was added")
      else none)
  { level := determineCompatibilityLevel breakingChanges,
    breakingChanges := breakingChanges,
    warnings := warnings }

end Corelang

namespace Corelang

/-! ## Compiler context (`src/compiler/context.ts`) -/

inductive DiagSeverity where
  | error
  | warning
  | info
  | hint
deriving DecidableEq, Repr

structure Diagnostic where
  severity : DiagSeverity
  message : String
  code : Option String
deriving DecidableEq, Repr

def mkDiag (severity : DiagSeverity) (message : String) (code : String) : Diagnostic :=
  { severity := severity, message := message, code := some code }

structure CompilerOptions where
  strictVersioning : Bool
  warnOnDeprecated : Bool
  requireMigrations : Bool
  allowUnstableVersions : Bool
deriving DecidableEq, Repr

/-- The defaults installed by the `CompilerContext` constructor. -/
def defaultCompilerOptions : CompilerOptions :=
  { strictVersioning := true, warnOnDeprecated := true,
    requireMigrations := false, allowUnstableVersions := false }

inductive ModuleElement where
  | functionElem (fn : FunctionNode)
  | typeElem (t : TypeDefNode)
  | otherElem

structure ModuleNode where
  name : String
  elements : List ModuleElement

structure CompilerCtx where
  fnRegistry : VersionRegistry FunctionNode
  typeRegistry : VersionRegistry TypeDefNode
  diagnostics : List Diagnostic
  options : CompilerOptions
  modules : List (String × ModuleNode)

def stabilityName (s : StabilityLevel) : String :=
  match s with
  | .stable => "stable"
  | .beta => "beta"
  | .alpha => "alpha"
  | .deprecated => "deprecated"

/-- The warnings appended at the tail of `validateFunctionVersion`
(deprecated / unstable stability). -/
def functionVersionTailDiags (opts : CompilerOptions) (vi : VersionInfo)
    (fnName : String) : List Diagnostic :=
  (if opts.warnOnDeprecated ∧ vi.stability = some .deprecated then
    [mkDiag .warning ("Function " ++ fnName ++ ":" ++ vi.version ++ " is deprecated")
      "VER005"]
   else []) ++
  (if ¬ opts.allowUnstableVersions ∧
      (vi.stability = some .alpha ∨ vi.stability = some .beta) then
    [mkDiag .warning ("Function " ++ fnName ++ ":" ++ vi.version ++ " is "
        ++ (match vi.stability with
            | some s => stabilityName s
            | none => "") ++ " (unstable)")
      "VER006"]
   else [])

/-- The diagnostics emitted when the replaced predecessor is found in the
registry: the `VER003` error on an un-bumped breaking change, then a
`VER004` warning per breaking-change detail of severity error. -/
def replacesDiags (reg : VersionRegistry FunctionNode) (fn : FunctionNode)
    (vi : VersionInfo) (version replacesVersion : SemanticVersion) :
    List Diagnostic :=
  match regGet reg fn.name replacesVersion with
  | none => []
  | some oldVersion =>
      let compat := checkFunctionCompatibility oldVersion.node fn
      (if compat.level = .breaking ∧ version.major = oldVersion.version.major then
        [mkDiag .error ("Breaking changes require major version increment ("
            ++ toString oldVersion.version.major ++ ".x.x -> "
            ++ toString (version.major + 1) ++ ".0.0)")
          "VER003"]
       else []) ++
      compat.breakingChanges.filterMap (fun change =>
        if change.severity = .error then
          some (mkDiag .warning ("Breaking change in " ++ fn.name ++ ":" ++ vi.version
              ++ ": " ++ change.description)
            "VER004")
        else none)

/-- `CompilerContext.validateFunctionVersion`: returns the is-valid flag
and the diagnostics it appends. -/
def validateFunctionVersion (reg : VersionRegistry FunctionNode)
    (opts : CompilerOptions) (fn : FunctionNode) : Bool × List Diagnostic :=
  match fn.version with
  | none => (true, [])
  | some vi =>
      match parseVersion vi.version with
      | none =>
          (false, [mkDiag .error ("Invalid version string: " ++ vi.version) "VER001"])
      | some version =>
          match vi.replaces with
          | some (replacesStr :: _) =>
              (match parseVersion replacesStr with
               | none =>
                   (false, [mkDiag .error ("Invalid replacement version: " ++ replacesStr)
                     "VER002"])
               | some replacesVersion =>
                   (true, replacesDiags reg fn vi version replacesVersion ++
                     functionVersionTailDiags opts vi fn.name))
          | _ => (true, functionVersionTailDiags opts vi fn.name)

/-- `CompilerContext.validateTypeVersion` (errors `VER001`/`VER002`,
warnings `VER007`; no stability warnings for types). -/
def validateTypeVersion (reg : VersionRegistry TypeDefNode)
    (t : TypeDefNode) : Bool × List Diagnostic :=
  match t.version with
  | none => (true, [])
  | some vi =>
      match parseVersion vi.version with
      | none =>
          (false, [mkDiag .error ("Invalid version string: " ++ vi.version) "VER001"])
      | some _ =>
          match vi.replaces with
          | some (replacesStr :: _) =>
              (match parseVersion replacesStr with
               | none =>
                   (false, [mkDiag .error ("Invalid replacement version: " ++ replacesStr)
                     "VER002"])
               | some replacesVersion =>
                   (true,
                     match regGet reg t.name replacesVersion with
                     | none => []
                     | some oldVersion =>
                         (checkTypeCompatibility oldVersion.node t).breakingChanges.map
                           (fun change =>
                             mkDiag .warning ("Breaking change in " ++ t.name ++ ":"
                                 ++ vi.version ++ ": " ++ change.description)
                               "VER007")))
          | _ => (true, [])

/-- JS truthiness of `element.version?.version` (undefined or the empty
string are falsy). -/
def fnHasVersionString (fn : FunctionNode) : Bool :=
  match fn.version with
  | some vi => vi.version ≠ ""
  | none => false

def typeHasVersionString (t : TypeDefNode) : Bool :=
  match t.version with
  | some vi => vi.version ≠ ""
  | none => false

/-- The element loop of `registerModule`: surviving functions, surviving
types, and the appended diagnostics, in element order. -/
def moduleSurvivors (ctx : CompilerCtx) (elements : List ModuleElement) :
    List FunctionNode × List TypeDefNode × List Diagnostic :=
  elements.foldl
    (fun acc e =>
      match e with
      | .functionElem fn =>
          if fnHasVersionString fn then
            let val := validateFunctionVersion ctx.fnRegistry ctx.options fn
            (if val.1 then acc.1 ++ [fn] else acc.1, acc.2.1, acc.2.2 ++ val.2)
          else (acc.1 ++ [fn], acc.2.1, acc.2.2)
      | .typeElem t =>
          if typeHasVersionString t then
            let val := validateTypeVersion ctx.typeRegistry t
            (acc.1, if val.1 then acc.2.1 ++ [t] else acc.2.1, acc.2.2 ++ val.2)
          else (acc.1, acc.2.1 ++ [t], acc.2.2)
      | .otherElem => acc)
    ([], [], [])

/-- `ModuleVersionRegistry.registerModule`, function half: register each
surviving function that carries a version string. -/
def registerAllFns (reg : VersionRegistry FunctionNode) :
    List FunctionNode → Except String (VersionRegistry FunctionNode)
  | [] => .ok reg
  | fn :: rest =>
      if fnHasVersionString fn then
        match registerEntity reg fn with
        | .ok reg' => registerAllFns reg' rest
        | .error e => .error e
      else registerAllFns reg rest

/-- `ModuleVersionRegistry.registerModule`, type half. -/
def registerAllTypes (reg : VersionRegistry TypeDefNode) :
    List TypeDefNode → Except String (VersionRegistry TypeDefNode)
  | [] => .ok reg
  | t :: rest =>
      if typeHasVersionString t then
        match registerEntity reg t with
        | .ok reg' => registerAllTypes reg' rest
        | .error e => .error e
      else registerAllTypes reg rest

/-- `CompilerContext.registerModule`. -/
def registerModule (ctx : CompilerCtx) (module : ModuleNode) :
    Except String CompilerCtx :=
  let processed := moduleSurvivors ctx module.elements
  match registerAllFns ctx.fnRegistry processed.1 with
  | .error e => .error e
  | .ok fnReg =>
      match registerAllTypes ctx.typeRegistry processed.2.1 with
      | .error e => .error e
      | .ok tyReg =>
          .ok { ctx with
                fnRegistry := fnReg,
                typeRegistry := tyReg,
                diagnostics := ctx.diagnostics ++ processed.2.2,
                modules := mapSet ctx.modules module.name module }

end Corelang

namespace Corelang

/-! ### Claim C3: which versioning diagnostics prevent registration -/

theorem mem_functionVersionTailDiags_code (opts : CompilerOptions) (vi : VersionInfo)
    (fnName : String) (d : Diagnostic)
    (h : d ∈ functionVersionTailDiags opts vi fnName) :
    d.code = some "VER005" ∨ d.code = some "VER006" := by
  unfold functionVersionTailDiags at h
  rw [List.mem_append] at h
  rcases h with h | h
  · split at h
    · simp only [List.mem_singleton] at h
      exact Or.inl (by rw [h]; rfl)
    · exact absurd h (List.not_mem_nil d)
  · split at h
    · simp only [List.mem_singleton] at h
      exact Or.inr (by rw [h]; rfl)
    · exact absurd h (List.not_mem_nil d)

theorem mem_replacesDiags_code (reg : VersionRegistry FunctionNode)
    (fn : FunctionNode) (vi : VersionInfo) (version rv : SemanticVersion)
    (d : Diagnostic) (h : d ∈ replacesDiags reg fn vi version rv) :
    d.code = some "VER003" ∨ d.code = some "VER004" := by
  unfold replacesDiags at h
  split at h
  · exact absurd h (List.not_mem_nil d)
  · rw [List.mem_append] at h
    rcases h with h | h
    · split at h
      · simp only [List.mem_singleton] at h
        exact Or.inl (by rw [h]; rfl)
      · exact absurd h (List.not_mem_nil d)
    · rw [List.mem_filterMap] at h
      obtain ⟨c, _, hc⟩ := h
      split at hc
      · rw [Option.some.injEq] at hc
        exact Or.inr (by rw [← hc]; rfl)
      · cases hc

theorem validateFunctionVersion_shape (reg : VersionRegistry FunctionNode)
    (opts : CompilerOptions) (fn : FunctionNode) :
    (∃ ds, validateFunctionVersion reg opts fn = (true, ds) ∧
      ∀ d ∈ ds, d.code = some "VER003" ∨ d.code = some "VER004" ∨
        d.code = some "VER005" ∨ d.code = some "VER006") ∨
    (∃ d, validateFunctionVersion reg opts fn = (false, [d]) ∧
      d.severity = .error ∧ (d.code = some "VER001" ∨ d.code = some "VER002")) := by
  unfold validateFunctionVersion
  rcases hvi : fn.version with _ | vi
  · exact Or.inl ⟨[], rfl, fun d hd => absurd hd (List.not_mem_nil d)⟩
  · dsimp only
    rcases hp : parseVersion vi.version with _ | v
    · exact Or.inr ⟨_, rfl, rfl, Or.inl rfl⟩
    · dsimp only
      rcases hrep : vi.replaces with _ | l
      · left
        refine ⟨_, rfl, fun d hd => ?_⟩
        rcases mem_functionVersionTailDiags_code opts vi fn.name d hd with h | h
        · exact Or.inr (Or.inr (Or.inl h))
        · exact Or.inr (Or.inr (Or.inr h))
      · rcases l with _ | ⟨s, rest⟩
        · left
          refine ⟨_, rfl, fun d hd => ?_⟩
          rcases mem_functionVersionTailDiags_code opts vi fn.name d hd with h | h
          · exact Or.inr (Or.inr (Or.inl h))
          · exact Or.inr (Or.inr (Or.inr h))
        · dsimp only
          rcases hps : parseVersion s with _ | rv
          · exact Or.inr ⟨_, rfl, rfl, Or.inr rfl⟩
          · left
            refine ⟨_, rfl, fun d hd => ?_⟩
            rw [List.mem_append] at hd
            rcases hd with hd | hd
            · rcases mem_replacesDiags_code reg fn vi v rv d hd with h | h
              · exact Or.inl h
              · exact Or.inr (Or.inl h)
            · rcases mem_functionVersionTailDiags_code opts vi fn.name d hd with h | h
              · exact Or.inr (Or.inr (Or.inl h))
              · exact Or.inr (Or.inr (Or.inr h))

theorem validateTypeVersion_shape (reg : VersionRegistry TypeDefNode)
    (t : TypeDefNode) :
    (∃ ds, validateTypeVersion reg t = (true, ds) ∧
      ∀ d ∈ ds, d.code = some "VER007" ∧ d.severity = .warning) ∨
    (∃ d, validateTypeVersion reg t = (false, [d]) ∧
      d.severity = .error ∧ (d.code = some "VER001" ∨ d.code = some "VER002")) := by
  unfold validateTypeVersion
  rcases hvi : t.version with _ | vi
  · exact Or.inl ⟨[], rfl, fun d hd => absurd hd (List.not_mem_nil d)⟩
  · dsimp only
    rcases hp : parseVersion vi.version with _ | v
    · exact Or.inr ⟨_, rfl, rfl, Or.inl rfl⟩
    · dsimp only
      rcases hrep : vi.replaces with _ | l
      · exact Or.inl ⟨[], rfl, fun d hd => absurd hd (List.not_mem_nil d)⟩
      · rcases l with _ | ⟨s, rest⟩
        · exact Or.inl ⟨[], rfl, fun d hd => absurd hd (List.not_mem_nil d)⟩
        · dsimp only
          rcases hps : parseVersion s with _ | rv
          · exact Or.inr ⟨_, rfl, rfl, Or.inr rfl⟩
          · left
            refine ⟨_, rfl, fun d hd => ?_⟩
            split at hd
            · exact absurd hd (List.not_mem_nil d)
            · rw [List.mem_map] at hd
              obtain ⟨c, _, hc⟩ := hd
              exact ⟨by rw [← hc]; rfl, by rw [← hc]; rfl⟩

/-- Predicate "error-severity diagnostic coded VER001 or VER002". -/
def isVer12Err (d : Diagnostic) : Bool :=
  decide (d.severity = DiagSeverity.error ∧
    (d.code = some "VER001" ∨ d.code = some "VER002"))

/-- Predicate "error-severity diagnostic coded VER003". -/
def isVer3Err (d : Diagnostic) : Bool :=
  decide (d.severity = DiagSeverity.error ∧ d.code = some "VER003")

/-- C3 (amended): per-entity validation rejects exactly on the VER001
(unparseable version) / VER002 (unparseable replacement version) errors,
for functions and for types; a function run that emits the error-severity
VER003 diagnostic still validates, and `registerModule` registers exactly
the entities whose validation returned `true` — so a VER003-emitting
function is registered while VER001/VER002 emitters (and, for types,
every error emitter) are not. -/
theorem ver003_does_not_prevent_registration :
    (∀ (reg : VersionRegistry FunctionNode) (opts : CompilerOptions)
       (fn : FunctionNode),
      ((validateFunctionVersion reg opts fn).1 = false ↔
        (validateFunctionVersion reg opts fn).2.any isVer12Err) ∧
      ((validateFunctionVersion reg opts fn).2.any isVer3Err →
        (validateFunctionVersion reg opts fn).1 = true)) ∧
    (∀ (reg : VersionRegistry TypeDefNode) (t : TypeDefNode),
      ((validateTypeVersion reg t).1 = false ↔
        (validateTypeVersion reg t).2.any isVer12Err) ∧
      (∀ d ∈ (validateTypeVersion reg t).2, d.severity = .error →
        (validateTypeVersion reg t).1 = false)) ∧
    (∀ (ctx : CompilerCtx) (fn : FunctionNode),
      (validateFunctionVersion ctx.fnRegistry ctx.options fn).1 = false →
      ∃ ctx', registerModule ctx { name := "m", elements := [.functionElem fn] }
          = .ok ctx' ∧
        ctx'.fnRegistry = ctx.fnRegistry) ∧
    (∀ (ctx : CompilerCtx) (fn : FunctionNode) (vi : VersionInfo),
      fn.version = some vi → vi.version ≠ "" →
      (validateFunctionVersion ctx.fnRegistry ctx.options fn).1 = true →
      ∃ v ctx', parseVersion vi.version = some v ∧
        registerModule ctx { name := "m", elements := [.functionElem fn] }
          = .ok ctx' ∧
        regGet ctx'.fnRegistry fn.name v =
          some (registerVersioned ctx.fnRegistry fn vi v)) ∧
    (∀ (ctx : CompilerCtx) (t : TypeDefNode),
      (validateTypeVersion ctx.typeRegistry t).1 = false →
      ∃ ctx', registerModule ctx { name := "mt", elements := [.typeElem t] }
          = .ok ctx' ∧
        ctx'.typeRegistry = ctx.typeRegistry) ∧
    (∀ (ctx : CompilerCtx) (t : TypeDefNode) (vi : VersionInfo),
      t.version = some vi → vi.version ≠ "" →
      (validateTypeVersion ctx.typeRegistry t).1 = true →
      ∃ v ctx', parseVersion vi.version = some v ∧
        registerModule ctx { name := "mt", elements := [.typeElem t] }
          = .ok ctx' ∧
        regGet ctx'.typeRegistry t.name v =
          some (registerVersioned ctx.typeRegistry t vi v)) := by
  refine ⟨?_, ?_, ?_, ?_, ?_, ?_⟩
  · -- function validation characterization
    intro reg opts fn
    rcases validateFunctionVersion_shape reg opts fn with
      ⟨ds, hval, hcodes⟩ | ⟨d, hval, hsev, hcode⟩
    · constructor
      · rw [hval]
        have hany : ds.any isVer12Err = false := by
          rw [List.any_eq_false]
          intro d hd
          rcases hcodes d hd with h | h | h | h <;> simp [isVer12Err, h]
        simp [hany]
      · rw [hval]
        intro _
        rfl
    · constructor
      · rw [hval]
        rcases hcode with hc | hc <;> simp [isVer12Err, hsev, hc]
      · rw [hval]
        intro hcontra
        exfalso
        rcases hcode with hc | hc <;> simp [isVer3Err, hc] at hcontra
  · -- type validation characterization
    intro reg t
    rcases validateTypeVersion_shape reg t with
      ⟨ds, hval, hprops⟩ | ⟨d, hval, hsev, hcode⟩
    · constructor
      · rw [hval]
        have hany : ds.any isVer12Err = false := by
          rw [List.any_eq_false]
          intro d hd
          simp [isVer12Err, (hprops d hd).1, (hprops d hd).2]
        simp [hany]
      · intro d hd hde
        rw [hval] at hd
        exfalso
        have hw := (hprops d hd).2
        rw [hde] at hw
        exact DiagSeverity.noConfusion hw
    · constructor
      · rw [hval]
        rcases hcode with hc | hc <;> simp [isVer12Err, hsev, hc]
      · intro d hd hde
        rw [hval]
  · -- invalid function entities are not registered
    intro ctx fn h
    cases hfv : fnHasVersionString fn
    · have hsurv : moduleSurvivors ctx [.functionElem fn] = ([fn], [], []) := by
        unfold moduleSurvivors
        simp only [List.foldl, hfv, Bool.false_eq_true, if_false, List.nil_append]
      have hra : registerAllFns ctx.fnRegistry [fn] = .ok ctx.fnRegistry := by
        unfold registerAllFns
        simp only [hfv, Bool.false_eq_true, if_false]
        rfl
      refine ⟨{ ctx with
                diagnostics := ctx.diagnostics ++ [],
                modules := mapSet ctx.modules "m"
                  { name := "m", elements := [.functionElem fn] } }, ?_, rfl⟩
      unfold registerModule
      simp only [hsurv, hra]
      rfl
    · have hsurv : moduleSurvivors ctx [.functionElem fn] =
          ([], [], (validateFunctionVersion ctx.fnRegistry ctx.options fn).2) := by
        unfold moduleSurvivors
        simp only [List.foldl, hfv, if_true, h, Bool.false_eq_true, if_false,
          List.nil_append]
      refine ⟨{ ctx with
                diagnostics := ctx.diagnostics ++
                  (validateFunctionVersion ctx.fnRegistry ctx.options fn).2,
                modules := mapSet ctx.modules "m"
                  { name := "m", elements := [.functionElem fn] } }, ?_, rfl⟩
      unfold registerModule
      simp only [hsurv]
      rfl
  · -- valid function entities are registered
    intro ctx fn vi hvi hvne h
    have hfvs : fnHasVersionString fn = true := by
      unfold fnHasVersionString
      rw [hvi]
      simp [hvne]
    rcases hp : parseVersion vi.version with _ | v
    · exfalso
      have hfalse : validateFunctionVersion ctx.fnRegistry ctx.options fn =
          (false, [mkDiag .error ("Invalid version string: " ++ vi.version)
            "VER001"]) := by
        unfold validateFunctionVersion
        rw [hvi]
        dsimp only
        rw [hp]
      rw [hfalse] at h
      exact Bool.noConfusion h
    · obtain ⟨ds, hval⟩ :
          ∃ ds, validateFunctionVersion ctx.fnRegistry ctx.options fn =
            (true, ds) := by
        rcases validateFunctionVersion_shape ctx.fnRegistry ctx.options fn with
          ⟨ds, hv2, _⟩ | ⟨d, hv2, _, _⟩
        · exact ⟨ds, hv2⟩
        · rw [hv2] at h
          exact Bool.noConfusion h
      have hsurv : moduleSurvivors ctx [.functionElem fn] = ([fn], [], ds) := by
        unfold moduleSurvivors
        simp only [List.foldl, hfvs, if_true, hval, List.nil_append]
      have hregAll : registerAllFns ctx.fnRegistry [fn] =
          .ok (registerOk ctx.fnRegistry fn vi v) := by
        unfold registerAllFns
        rw [hfvs, if_pos rfl, registerEntity_eq ctx.fnRegistry fn vi v hvi hp]
        rfl
      refine ⟨v, { ctx with
                   fnRegistry := registerOk ctx.fnRegistry fn vi v,
                   diagnostics := ctx.diagnostics ++ ds,
                   modules := mapSet ctx.modules "m"
                     { name := "m", elements := [.functionElem fn] } },
              rfl, ?_, ?_⟩
      · unfold registerModule
        simp only [hsurv, hregAll]
        rfl
      · exact regGet_registerOk_self ctx.fnRegistry fn vi v
  · -- invalid type entities are not registered
    intro ctx t h
    cases hfv : typeHasVersionString t
    · have hsurv : moduleSurvivors ctx [.typeElem t] = ([], [t], []) := by
        unfold moduleSurvivors
        simp only [List.foldl, hfv, Bool.false_eq_true, if_false, List.nil_append]
      have hra : registerAllTypes ctx.typeRegistry [t] = .ok ctx.typeRegistry := by
        unfold registerAllTypes
        simp only [hfv, Bool.false_eq_true, if_false]
        rfl
      refine ⟨{ ctx with
                diagnostics := ctx.diagnostics ++ [],
                modules := mapSet ctx.modules "mt"
                  { name := "mt", elements := [.typeElem t] } }, ?_, rfl⟩
      unfold registerModule
      simp only [hsurv, hra]
      rfl
    · have hsurv : moduleSurvivors ctx [.typeElem t] =
          ([], [], (validateTypeVersion ctx.typeRegistry t).2) := by
        unfold moduleSurvivors
        simp only [List.foldl, hfv, if_true, h, Bool.false_eq_true, if_false,
          List.nil_append]
      refine ⟨{ ctx with
                diagnostics := ctx.diagnostics ++
                  (validateTypeVersion ctx.typeRegistry t).2,
                modules := mapSet ctx.modules "mt"
                  { name := "mt", elements := [.typeElem t] } }, ?_, rfl⟩
      unfold registerModule
      simp only [hsurv]
      rfl
  · -- valid type entities are registered
    intro ctx t vi hvi hvne h
    have htvs : typeHasVersionString t = true := by
      unfold typeHasVersionString
      rw [hvi]
      simp [hvne]
    rcases hp : parseVersion vi.version with _ | v
    · exfalso
      have hfalse : validateTypeVersion ctx.typeRegistry t =
          (false, [mkDiag .error ("Invalid version string: " ++ vi.version)
            "VER001"]) := by
        unfold validateTypeVersion
        rw [hvi]
        dsimp only
        rw [hp]
      rw [hfalse] at h
      exact Bool.noConfusion h
    · obtain ⟨ds, hval⟩ :
          ∃ ds, validateTypeVersion ctx.typeRegistry t = (true, ds) := by
        rcases validateTypeVersion_shape ctx.typeRegistry t with
          ⟨ds, hv2, _⟩ | ⟨d, hv2, _, _⟩
        · exact ⟨ds, hv2⟩
        · rw [hv2] at h
          exact Bool.noConfusion h
      have hsurv : moduleSurvivors ctx [.typeElem t] = ([], [t], ds) := by
        unfold moduleSurvivors
        simp only [List.foldl, htvs, if_true, hval, List.nil_append]
      have hregAll : registerAllTypes ctx.typeRegistry [t] =
          .ok (registerOk ctx.typeRegistry t vi v) := by
        unfold registerAllTypes
        rw [htvs, if_pos rfl, registerEntity_eq ctx.typeRegistry t vi v hvi hp]
        rfl
      refine ⟨v, { ctx with
                   typeRegistry := registerOk ctx.typeRegistry t vi v,
                   diagnostics := ctx.diagnostics ++ ds,
                   modules := mapSet ctx.modules "mt"
                     { name := "mt", elements := [.typeElem t] } },
              rfl, ?_, ?_⟩
      · unfold registerModule
        simp only [hsurv, hregAll]
        rfl
      · exact regGet_registerOk_self ctx.typeRegistry t vi v

def intParamNode : ParameterNode :=
  { name := "x", paramType := .primitive "int", optional := false }

def stringParamNode : ParameterNode :=
  { name := "x", paramType := .primitive "string", optional := false }

def breakingFnV1 : FunctionNode :=
  { name := "fn",
    version := some { version := "v1.0.0", replaces := none, stability := some .stable,
                      deprecated := none, rollbackSafe := some true },
    security := { requiredRoles := [], requiredCapabilities := [],
                  requiredPermissions := [], auditRequired := false,
                  handlesSecrets := false, crossesBoundary := false },
    signature_inputs := [intParamNode], signature_outputs := [],
    effects := [], metadata := { doc := none, pure := some true } }

def breakingFnV2 : FunctionNode :=
  { breakingFnV1 with
    version := some { version := "v1.1.0", replaces := some ["v1.0.0"],
                      stability := some .stable, deprecated := none,
                      rollbackSafe := some true },
    signature_inputs := [stringParamNode] }

def emptyCompilerCtx : CompilerCtx :=
  { fnRegistry := { chains := [] }, typeRegistry := { chains := [] },
    diagnostics := [], options := defaultCompilerOptions, modules := [] }

def breakingModule1 : ModuleNode :=
  { name := "test", elements := [.functionElem breakingFnV1] }

def breakingModule2 : ModuleNode :=
  { name := "test", elements := [.functionElem breakingFnV2] }

def breakingCtx1 : CompilerCtx :=
  match registerModule emptyCompilerCtx breakingModule1 with
  | .ok c => c
  | .error _ => emptyCompilerCtx

def breakingCtx2 : CompilerCtx :=
  match registerModule breakingCtx1 breakingModule2 with
  | .ok c => c
  | .error _ => breakingCtx1

/-- C3 counterexample: registering `fn v1.1.0 (replaces v1.0.0)` whose
input type changed (a breaking change without a major bump) emits the
error-severity `VER003` diagnostic **and** the entity is nevertheless
registered in the version registry — refuting "entities that emit an
error-severity versioning diagnostic are not registered" as stated. -/
theorem ver003_entity_still_registered :
    registerModule emptyCompilerCtx breakingModule1 = .ok breakingCtx1 ∧
    registerModule breakingCtx1 breakingModule2 = .ok breakingCtx2 ∧
    breakingCtx2.diagnostics.any
      (fun d => decide (d.severity = .error ∧ d.code = some "VER003")) = true ∧
    (regGet breakingCtx2.fnRegistry "fn" ⟨1, 1, 0, none, none⟩).isSome = true :=
  ⟨rfl, rfl, rfl, rfl⟩

/-- Witness for C3 (amended): the registered-when-valid half applied to
the concrete breaking-change context (validation of `fn v1.1.0` returns
`true` despite the emitted VER003, and the entity lands in the registry). -/
theorem ver003_does_not_prevent_registration_witness :
    ∃ v ctx',
      parseVersion "v1.1.0" = some v ∧
      registerModule breakingCtx1
        { name := "m", elements := [.functionElem breakingFnV2] } = .ok ctx' ∧
      regGet ctx'.fnRegistry breakingFnV2.name v =
        some (registerVersioned breakingCtx1.fnRegistry breakingFnV2
          { version := "v1.1.0", replaces := some ["v1.0.0"],
            stability := some .stable, deprecated := none,
            rollbackSafe := some true } v) :=
  ver003_does_not_prevent_registration.2.2.2.1 breakingCtx1 breakingFnV2
    { version := "v1.1.0", replaces := some ["v1.0.0"], stability := some .stable,
      deprecated := none, rollbackSafe := some true }
    rfl (by decide) rfl

end Corelang

namespace Corelang

/-! ## Migration registry (claim C6)

`src/compiler/versioning/migration.ts` is embedded as the second document
of `src/compiler/versioning/semver.test.ts`; the definitions below port
its `MigrationRegistry` (`register`, `find`, `buildPath`) and run against
the embedded `VersionRegistry.getReplacementChain`. -/

structure MigrationFunction where
  name : String
  fromVersion : SemanticVersion
  toVersion : SemanticVersion
  migrationFn : FunctionNode
  validated : Bool
  issues : List String

structure MigrationStep where
  fromVersion : SemanticVersion
  toVersion : SemanticVersion
  migration : MigrationFunction

structure MigrationPath where
  fromVersion : SemanticVersion
  toVersion : SemanticVersion
  steps : List MigrationStep
  isComplete : Bool
  totalSteps : Nat

/-- The `migrations: Map<string, MigrationFunction[]>` of
`MigrationRegistry`. -/
structure MigrationRegistryState where
  migrations : List (String × List MigrationFunction)

/-- `MigrationRegistry.register`: build the named migration record and
append it to the target function's list. -/
def migrationRegister (st : MigrationRegistryState) (targetFunction : String)
    (fromVersion toVersion : SemanticVersion) (migrationFn : FunctionNode) :
    MigrationRegistryState :=
  let migration : MigrationFunction :=
    { name := targetFunction ++ "_v" ++ toString fromVersion.major ++ "_"
        ++ toString fromVersion.minor ++ "_to_v" ++ toString toVersion.major
        ++ "_" ++ toString toVersion.minor,
      fromVersion := fromVersion, toVersion := toVersion,
      migrationFn := migrationFn, validated := false, issues := [] }
  { migrations := mapSet st.migrations targetFunction
      ((mapGet st.migrations targetFunction).getD [] ++ [migration]) }

/-- `MigrationRegistry.find`: first migration whose endpoints compare
equal to the requested pair. -/
def migrationFind (st : MigrationRegistryState) (functionName : String)
    (fromVersion toVersion : SemanticVersion) : Option MigrationFunction :=
  match mapGet st.migrations functionName with
  | none => none
  | some migrations =>
      migrations.find? (fun m =>
        decide (compareVersions m.fromVersion fromVersion = .equal) &&
        decide (compareVersions m.toVersion toVersion = .equal))

/-- The `for (let i = 0; i < replacementChain.length - 1; i++)` loop of
`buildPath` over consecutive chain pairs: collect a step per found
migration, **return early** (second component `true`) at the first
missing one, and **break** once a step's `to` compares equal to the
target version. -/
def buildPathGo (st : MigrationRegistryState) (functionName : String)
    (toVersion : SemanticVersion) : List SemanticVersion →
    List MigrationStep × Bool
  | a :: b :: rest =>
      (match migrationFind st functionName a b with
       | none => ([], true)
       | some migration =>
           if compareVersions b toVersion = .equal then
             ([{ fromVersion := a, toVersion := b, migration := migration }], false)
           else
             let tail := buildPathGo st functionName toVersion (b :: rest)
             ({ fromVersion := a, toVersion := b, migration := migration } :: tail.1,
               tail.2))
  | _ => ([], false)

/-- Number of registered versions of `name`; for the acyclic replacement
graphs the registry maintains, a chain walk visits each at most once, so
this bounds the source's unguarded `while` loop exactly. -/
def regVersionCount {T : Type} (reg : VersionRegistry T) (name : String) : Nat :=
  match mapGet reg.chains name with
  | some chain => chain.versions.length
  | none => 0

/-- `MigrationRegistry.buildPath`: walk the replacement chain from
`fromVersion`; on a missing migration return the partial path with
`isComplete = false` and `totalSteps = chain.length - 1`; otherwise
`isComplete` iff at least one step was taken and the last step's `to`
compares equal to the target, with `totalSteps = steps.length`. -/
def buildPath (st : MigrationRegistryState) (functionName : String)
    (fromVersion toVersion : SemanticVersion)
    (versionRegistry : VersionRegistry FunctionNode) : MigrationPath :=
  let replacementChain := getReplacementChainFuel
    (regVersionCount versionRegistry functionName) versionRegistry
    functionName fromVersion
  let walk := buildPathGo st functionName toVersion replacementChain
  if walk.2 then
    { fromVersion := fromVersion, toVersion := toVersion, steps := walk.1,
      isComplete := false, totalSteps := replacementChain.length - 1 }
  else
    { fromVersion := fromVersion, toVersion := toVersion, steps := walk.1,
      isComplete :=
        (match walk.1.getLast? with
         | some lastStep => decide (compareVersions lastStep.toVersion toVersion = .equal)
         | none => false),
      totalSteps := walk.1.length }

/-! ### The concrete scenario of the claim (semver.test.ts, §8 scenario 6) -/

def calcV3Fn : FunctionNode :=
  { calcV1Fn with
    version := some { version := "v3.0.0", replaces := some ["v2.0.0"],
                      stability := some .stable, deprecated := none,
                      rollbackSafe := some true } }

/-- `calc` registered at v1.0.0, then v2.0.0 (replaces v1.0.0), then
v3.0.0 (replaces v2.0.0). -/
def calcRegistry : VersionRegistry FunctionNode :=
  match (do
    let r1 ← registerEntity emptyFnRegistry calcV1Fn
    let r2 ← registerEntity r1 calcV2Fn
    registerEntity r2 calcV3Fn : Except String (VersionRegistry FunctionNode)) with
  | .ok r => r
  | .error _ => emptyFnRegistry

def migrationNode1to2 : FunctionNode :=
  { calcV1Fn with name := "m1to2" }

def migrationNode2to3 : FunctionNode :=
  { calcV1Fn with name := "m2to3" }

def semverV1 : SemanticVersion := ⟨1, 0, 0, none, none⟩

def semverV2 : SemanticVersion := ⟨2, 0, 0, none, none⟩

def semverV3 : SemanticVersion := ⟨3, 0, 0, none, none⟩

/-- Both migrations registered: (v1 → v2) and (v2 → v3). -/
def calcMigrationsBoth : MigrationRegistryState :=
  migrationRegister
    (migrationRegister { migrations := [] } "calc" semverV1 semverV2 migrationNode1to2)
    "calc" semverV2 semverV3 migrationNode2to3

/-- Only the (v1 → v2) migration registered. -/
def calcMigrationsOne : MigrationRegistryState :=
  migrationRegister { migrations := [] } "calc" semverV1 semverV2 migrationNode1to2

/-- C6: `buildPath('calc', v1.0.0, v3.0.0)` follows the replacement chain
`v1 → v2 → v3`: with both migrations registered it returns exactly two
steps `(v1,v2), (v2,v3)` with `isComplete = true`; with only the `v1→v2`
migration it returns the one-step partial path with `isComplete = false`.
The first conjunct checks the chain the walk follows; the last conjunct
exercises the loop's early break at a mid-chain target (`v1 → v2` with
both migrations registered stops after one step, complete). -/
theorem buildPath_follows_replacement_chain :
    getReplacementChainFuel (regVersionCount calcRegistry "calc") calcRegistry
      "calc" semverV1 = [semverV1, semverV2, semverV3] ∧
    (buildPath calcMigrationsBoth "calc" semverV1 semverV3 calcRegistry).steps.map
      (fun s => (s.fromVersion, s.toVersion)) =
        [(semverV1, semverV2), (semverV2, semverV3)] ∧
    (buildPath calcMigrationsBoth "calc" semverV1 semverV3 calcRegistry).isComplete
      = true ∧
    (buildPath calcMigrationsOne "calc" semverV1 semverV3 calcRegistry).steps.map
      (fun s => (s.fromVersion, s.toVersion)) = [(semverV1, semverV2)] ∧
    (buildPath calcMigrationsOne "calc" semverV1 semverV3 calcRegistry).isComplete
      = false ∧
    (buildPath calcMigrationsBoth "calc" semverV1 semverV2 calcRegistry).steps.map
      (fun s => (s.fromVersion, s.toVersion)) = [(semverV1, semverV2)] ∧
    (buildPath calcMigrationsBoth "calc" semverV1 semverV2 calcRegistry).isComplete
      = true :=
  ⟨rfl, rfl, rfl, rfl, rfl, rfl, rfl⟩

end Corelang
